import Mathlib

/-!
Verification of the Stargate bridging core against its specification.

The Python source is shallowly embedded: machine integers are `ℤ`/`ℕ`,
Python `float` values are rationals together with an explicit model of
IEEE-754 binary64 round-to-nearest-even (`roundDouble`, with unbounded
exponent range: overflow and subnormals never occur at the magnitudes
handled by this program), fallible code returns `Except`, and the
JSON-backed ledger is explicit state threaded through the operations.
-/

set_option maxHeartbeats 1000000
set_option linter.unusedTactic false
set_option linter.unusedVariables false

namespace StargateProject

/-! ### Definitions: the shallow embedding -/

/-- Round a rational to the nearest integer, ties to even. -/
def rne (x : ℚ) : ℤ :=
  if Int.fract x < 1/2 then ⌊x⌋
  else if 1/2 < Int.fract x then ⌊x⌋ + 1
  else if ⌊x⌋ % 2 = 0 then ⌊x⌋ else ⌊x⌋ + 1

/-- Binade exponent of a positive rational: the unique `e` with `2^e ≤ q < 2^(e+1)`. -/
def qexp (q : ℚ) : ℤ :=
  if (2:ℚ) ^ ((Nat.log 2 q.num.natAbs : ℤ) - (Nat.log 2 q.den : ℤ)) ≤ q
  then (Nat.log 2 q.num.natAbs : ℤ) - (Nat.log 2 q.den : ℤ)
  else (Nat.log 2 q.num.natAbs : ℤ) - (Nat.log 2 q.den : ℤ) - 1

/-- Round a positive rational to 53 significant bits, nearest, ties to even. -/
def roundPos (q : ℚ) : ℚ :=
  (rne (q / 2 ^ (qexp q - 52)) : ℚ) * 2 ^ (qexp q - 52)

/-- IEEE binary64 rounding of a real (rational) value, round-to-nearest-even,
with unbounded exponent range (no overflow or subnormals; every quantity in
this development stays well inside the normal range). -/
def roundDouble (q : ℚ) : ℚ :=
  if 0 < q then roundPos q else if q < 0 then -roundPos (-q) else 0

/-- Python `int(x)` applied to a float value: truncation toward zero. -/
def pyInt (x : ℚ) : ℤ := if 0 ≤ x then ⌊x⌋ else ⌈x⌉

/-- Python float addition: binary64 rounding of the exact sum. -/
def floatAdd (x y : ℚ) : ℚ := roundDouble (x + y)

/-- Python float multiplication: binary64 rounding of the exact product. -/
def floatMul (x y : ℚ) : ℚ := roundDouble (x * y)

/-- Python `a / b` on two ints (true division): the correctly rounded binary64
value of the exact quotient, as implemented by CPython `long_true_divide`. -/
def pyTrueDiv (a b : ℤ) : ℚ := roundDouble ((a : ℚ) / (b : ℚ))

/-- Source constant `GAS_MULTIPLIER = 1.2`: the binary64 value of the literal `1.2`. -/
def GAS_MULTIPLIER : ℚ := roundDouble (6/5)

/-- Source constant `RETRIES = 10`. -/
def RETRIES : ℕ := 10

/-- Source constant `MAX_SLIPPAGE = 1` (a Python int). -/
def MAX_SLIPPAGE : ℤ := 1

/-- Source constant `GAS_FEES_ESTIMATION_MULTIPLIER = 0.99`: the binary64 value of `0.99`. -/
def GAS_FEES_ESTIMATION_MULTIPLIER : ℚ := roundDouble (99/100)

/-- Source constant `STARGATE_FULL_BRIDGE_SIMULATION_TX_VALUE = 10000000000000`. -/
def STARGATE_FULL_BRIDGE_SIMULATION_TX_VALUE : ℤ := 10000000000000

/-- Source constant `STARGATE_ETH_NATIVE_POOL_ADDRESSES` (chain id -> pool address). -/
def STARGATE_ETH_NATIVE_POOL_ADDRESSES : List (ℤ × String) :=
  [(42161, "0xA45B5130f36CDcA45667738e2a258AB09f4A5f7F"),
   (10, "0xe8CDF27AcD73a434D661C84887215F7598e7d0d3"),
   (59144, "0x81F6138153d473E8c5EcebD3DC8Cd4903506B075"),
   (8453, "0xdc181Bd607330aeeBEF6ea62e03e5e1Fb4B6F7C7"),
   (534352, "0xC2b638Cb5042c1B3c5d5C969361fB50569840583")]

/-- Source constant `EMPTY_DATA = "0x"`. -/
def EMPTY_DATA : String := "0x"

/-- The per-transaction collection step of `Client.get_max_priority_fee_per_gas`:
a raised fetch (`none`) or a transaction without the `maxPriorityFeePerGas` field
(`some none`) contributes nothing, otherwise the field value is collected. -/
def pickSample : Option (Option ℤ) → Option ℤ := fun t =>
  match t with
  | some (some v) => some v
  | _ => none

/-- Source `Client.get_max_priority_fee_per_gas`. Each entry of `txs` models one
transaction of the latest block: `none` if fetching that transaction raised,
`some none` if it lacks the `maxPriorityFeePerGas` field, `some (some v)` if the
field is present with value `v`. `nodeSuggest` models `w3.eth.max_priority_fee`
(`none` meaning the RPC call raised, which triggers the 1.5 gwei fallback).
Python's `list.sort()` (stable, ascending) is modelled by `List.insertionSort`. -/
def get_max_priority_fee_per_gas (txs : List (Option (Option ℤ)))
    (nodeSuggest : Option ℤ) : ℤ :=
  let samples := txs.filterMap pickSample
  if samples.isEmpty then
    match nodeSuggest with
    | some v => v
    | none => 1500000000
  else
    (samples.insertionSort (fun a b => a ≤ b)).getD (samples.length / 2) 0

/-- Source `Client._get_eip1559_params`: `base_fee = int(baseFee * GAS_MULTIPLIER)`.
Python `int * float` first converts the int to binary64, multiplies in binary64,
then `int(...)` truncates. -/
def eip1559_base_fee (baseFeePerGas : ℤ) : ℤ :=
  pyInt (floatMul (roundDouble (baseFeePerGas : ℚ)) GAS_MULTIPLIER)

/-- Source `Client._get_eip1559_params`: `max_fee_per_gas = base_fee + max_priority_fee_per_gas`
(exact Python int addition). -/
def max_fee_per_gas (baseFeePerGas maxPriorityFeePerGas : ℤ) : ℤ :=
  eip1559_base_fee baseFeePerGas + maxPriorityFeePerGas

/-- Source `core/utils.py` `address_to_bytes32`: `'0x' + address[2:].zfill(64)`. -/
def address_to_bytes32 (address : String) : String :=
  "0x" ++ (String.mk (List.replicate (64 - (address.drop 2).length) '0') ++ address.drop 2)

/-- Source `Stargate._get_tx_data`: `int(amount * (100 - MAX_SLIPPAGE) / 100)`.
`amount * (100 - MAX_SLIPPAGE)` is exact Python int arithmetic; `/ 100` is float
true division (one correctly rounded binary64 operation); `int(...)` truncates. -/
def min_amount_after_slippage (amount : ℤ) : ℤ :=
  pyInt (pyTrueDiv (amount * (100 - MAX_SLIPPAGE)) 100)

/-- Environment for one run of `_estimate_amount_for_full_amount_bridge`: the values
returned by the collaborating RPC calls during that run. -/
structure EstimateEnv where
  balance : ℤ
  messageFee : ℤ
  gasUsed : ℤ
  gasPrice : ℤ

/-- Source `Stargate._estimate_amount_for_full_amount_bridge`. When `amount` is
`none` the quote is simulated with the fixed constant and the real balance is
substituted at the end; otherwise `AsyncWeb3.to_wei(amount, "ether")` (exact
Decimal multiply then truncation) is used both for the quote and as the initial
amount. The final expression `(initial - fee - gas) * 0.99` multiplies an int by
a binary64 constant (int converted to binary64 first, then one rounded multiply);
`from_wei` divides exactly (999-digit Decimal context) and `float(...)` rounds
the exact quotient back to binary64. -/
def estimate_amount_for_full_amount_bridge (env : EstimateEnv) (amount : Option ℚ) : ℚ :=
  let amount_wei : ℤ := match amount with
    | Option.none => STARGATE_FULL_BRIDGE_SIMULATION_TX_VALUE
    | Option.some a => pyInt (a * 10 ^ 18)
  let gas_fee : ℤ := env.gasUsed * env.gasPrice
  let initial_amount : ℤ := match amount with
    | Option.none => env.balance
    | Option.some _ => amount_wei
  roundDouble
    (floatMul (roundDouble ((initial_amount - env.messageFee - gas_fee : ℤ) : ℚ))
      GAS_FEES_ESTIMATION_MULTIPLIER / 10 ^ 18)

/-- The SendParameters tuple built by `Stargate._get_tx_data`. -/
structure SendParam where
  dst_eid : ℤ
  to_bytes32 : String
  amount : ℤ
  min_amount : ℤ
  extra_options : String
  compose_msg : String
  oft_cmd : String
deriving DecidableEq

/-- Source `Stargate._get_tx_data`, construction of `send_param`. -/
def build_send_param (dst_chain_lz_eid : ℤ) (address : String) (amount : ℤ)
    (mode : String) : SendParam :=
  { dst_eid := dst_chain_lz_eid
    to_bytes32 := address_to_bytes32 address
    amount := amount
    min_amount := min_amount_after_slippage amount
    extra_options := EMPTY_DATA
    compose_msg := EMPTY_DATA
    oft_cmd := if mode == "BUS" then "0x01" else "0x" }

/-- Boolean substring search on character lists. -/
def containsSub (pat : List Char) : List Char → Bool
  | [] => pat.isEmpty
  | c :: rest => pat.isPrefixOf (c :: rest) || containsSub pat rest

/-- Source test `'Block with id:' in str(e)`: substring membership classifying
the transient chain-reorg error. -/
def isReorgError (msg : String) : Bool :=
  containsSub ("Block with id:").toList msg.toList

/-- The `for _ in range(3)` loop of `get_gas_estimate`, reading attempt `i` from
`calls` and recording each `asyncio.sleep(1)` in a trace. -/
def get_gas_estimate_loop :
    ℕ → ℕ → (ℕ → Except String ℤ) → Except String ℤ × List ℕ
  | 0, i, calls => (calls i, [])
  | k+1, i, calls =>
    match calls i with
    | Except.ok v => (Except.ok v, [])
    | Except.error e =>
      if isReorgError e then
        let r := get_gas_estimate_loop k (i+1) calls
        (r.1, 1 :: r.2)
      else (Except.error e, [])

/-- Source `Client.get_gas_estimate`: three guarded attempts that retry only on
the reorg-class error (with a 1-second sleep between attempts), then one final
unguarded attempt whose result or error is surfaced. The second component is the
trace of sleep durations. -/
def get_gas_estimate (calls : ℕ → Except String ℤ) : Except String ℤ × List ℕ :=
  get_gas_estimate_loop 3 0 calls

/-- The Python values flowing through the retry wrapper and the ledger. -/
inductive PVal where
  | none : PVal
  | bool : Bool → PVal
  | int : ℤ → PVal
  | float : ℚ → PVal
  | str : String → PVal
deriving DecidableEq

/-- Python truthiness of a `PVal`. -/
def PVal.truthy : PVal → Bool
  | PVal.none => false
  | PVal.bool b => b
  | PVal.int z => z != 0
  | PVal.float q => q != 0
  | PVal.str s => s != ""

/-- Python `float(v)`: raises on `None` and non-numeric strings; converts ints
with binary64 rounding. -/
def pyFloat : PVal → Except String ℚ
  | PVal.none => Except.error ("float() argument must be a string or a real number, not NoneType")
  | PVal.bool b => Except.ok (if b then 1 else 0)
  | PVal.int z => Except.ok (roundDouble (z:ℚ))
  | PVal.float q => Except.ok q
  | PVal.str _ => Except.error ("could not convert string to float")

/-- The attempt loop of the `retry_on_fail` decorator. The wrapped call's
exceptions are NOT caught (an `Except.error` from `op` propagates); a result
that `is None or is False` is retried; after `tries` falsy results the wrapper
returns Python `False`. -/
def retry_on_fail_loop : ℕ → ℕ → (ℕ → Except String PVal) → Except String PVal
  | 0, _, _ => Except.ok (PVal.bool false)
  | k+1, i, op =>
    match op i with
    | Except.error e => Except.error e
    | Except.ok v =>
      if v = PVal.none ∨ v = PVal.bool false then retry_on_fail_loop k (i+1) op
      else Except.ok v

/-- Source `retry_on_fail(tries)` applied to an operation whose `i`-th invocation
is described by `op i`. -/
def retry_on_fail (tries : ℕ) (op : ℕ → Except String PVal) : Except String PVal :=
  retry_on_fail_loop tries 0 op

/-- One attempt of `Client.get_native_balance`: the balance RPC is guarded by a
`try`, so a raised fetch becomes Python `None`; otherwise the balance is
returned in wei, or converted by `float(from_wei(...))` for ether units. -/
def get_native_balance_attempt (fetch : Except String ℤ) (wei : Bool) : PVal :=
  match fetch with
  | Except.ok b => if wei then PVal.int b else PVal.float (roundDouble ((b:ℚ) / 10 ^ 18))
  | Except.error _ => PVal.none

/-- Source `Client.get_native_balance`, wrapped in `@retry_on_fail(tries=RETRIES)`. -/
def get_native_balance (fetches : ℕ → Except String ℤ) (wei : Bool) : Except String PVal :=
  retry_on_fail RETRIES (fun i => Except.ok (get_native_balance_attempt (fetches i) wei))

/-- One transaction record (a Python dict); only the keys the code reads are
named, the remaining keys are carried opaquely in `extra`. -/
structure TxRecord where
  amount : Option PVal := Option.none
  success : Option PVal := Option.none
  error : Option PVal := Option.none
  timestamp : Option PVal := Option.none
  extra : List (String × PVal) := []
deriving DecidableEq

/-- The in-memory ledger store: `{transactions: {address: [...]}, stats: {...}}`. -/
structure DB where
  transactions : List (String × List TxRecord)
  total_transactions : ℕ
  total_value_bridged : ℚ
  last_updated : String
deriving DecidableEq

/-- Python dict key lookup over the insertion-ordered entry list. -/
def lookup_wallet (db : DB) (addr : String) : Option (List TxRecord) :=
  (db.transactions.find? (fun p => p.1 == addr)).map (fun p => p.2)

/-- Source `Database.get_wallet_transactions`: `self.data["transactions"].get(addr, [])`. -/
def get_wallet_transactions (db : DB) (addr : String) : List TxRecord :=
  match lookup_wallet db addr with
  | Option.some l => l
  | Option.none => []

/-- In-place `append` on the list stored under a dict key. -/
def append_to_wallet (l : List (String × List TxRecord)) (addr : String)
    (r : TxRecord) : List (String × List TxRecord) :=
  l.map (fun p => if p.1 == addr then (p.1, p.2 ++ [r]) else p)

/-- The timestamp-defaulting step of `add_transaction`: `if "timestamp" not in
tx_data: tx_data["timestamp"] = datetime.now().isoformat()`. -/
def stamp (isoNow : String) (r : TxRecord) : TxRecord :=
  if r.timestamp.isSome then r else { r with timestamp := Option.some (PVal.str isoNow) }

/-- Source `Database._save_db`: refreshes `last_updated`, then attempts the disk
write; `saveOk` models whether that write succeeds. A failed write is caught
inside `_save_db` and reported as `false`. -/
def save_db (isoNow : String) (saveOk : Bool) (db : DB) : Bool × DB :=
  (saveOk, { db with last_updated := isoNow })

/-- Source `Database.add_transaction`. Mutations happen in order: ensure the
wallet key exists, default the timestamp, append the record, bump
`total_transactions`, and only then - for a record that has an `amount` key and
a truthy `success` - add `float(amount)` to `total_value_bridged`. A `float()`
failure is caught by the method's `except` with all earlier mutations kept. -/
def add_transaction (isoNow : String) (saveOk : Bool) (db : DB)
    (wallet_address : String) (tx_data : TxRecord) : Bool × DB :=
  let db1 : DB :=
    if (lookup_wallet db wallet_address).isSome then db
    else { db with transactions := db.transactions ++ [(wallet_address, [])] }
  let r : TxRecord := stamp isoNow tx_data
  let db2 : DB := { db1 with
    transactions := append_to_wallet db1.transactions wallet_address r
    total_transactions := db1.total_transactions + 1 }
  match r.amount, PVal.truthy (r.success.getD (PVal.bool false)) with
  | Option.some a, true =>
    match pyFloat a with
    | Except.ok q =>
        save_db isoNow saveOk
          { db2 with total_value_bridged := floatAdd db2.total_value_bridged q }
    | Except.error _ => (false, db2)
  | _, _ => save_db isoNow saveOk db2

/-- Folding `add_transaction` over a list of records (N successive calls). -/
def add_transaction_all (isoNow : String) (saveOk : Bool) (db : DB)
    (addr : String) (rs : List TxRecord) : DB :=
  rs.foldl (fun d r => (add_transaction isoNow saveOk d addr r).2) db

/-- The quote returned by `_get_tx_data`: total value to send, the send
parameters, and the first component of the messaging fee tuple. -/
structure QuoteResult where
  value : ℤ
  send_param : SendParam
  message_fee0 : ℤ
deriving DecidableEq

/-- Environment of one `bridge` run: the outcome of every collaborating call in
program order. Calls whose source wraps all failures internally are total
(`eth_price_usd`, `initial_balance`, `verify`); the rest may raise (`Except`). -/
structure BridgeEnv where
  t0 : ℚ
  t1 : ℚ
  gas_price : Except String ℤ
  eth_price_usd : ℚ
  initial_balance : PVal
  estimate_full : Except String ℚ
  quote : Except String QuoteResult
  tx_params : Except String Unit
  gas_estimate : Except String ℤ
  send_transaction : Except String (Option ℤ)
  verify : Bool
  receipt_gas_used : Except String (Option ℤ)
  save_ok : Bool
  iso_now : String

/-- The `try:` body of `Stargate.bridge` (source lines 154-236), as an
`Except`-computation: an `Except.error (msg, amt)` is an exception carrying
`str(e)` together with the value of the local variable `amount` at raise time
(the handler records that variable). On success it returns the `success` flag
and the `tx_data` record built for the ledger. -/
def bridge_body (env : BridgeEnv) (src_chain_name dst_chain_name : String)
    (amount0 : Option ℚ) (mode : String) (include_fees : Bool) :
    Except (String × Option ℚ) (Bool × TxRecord) :=
  match env.gas_price with
  | Except.error e => Except.error (e, amount0)
  | Except.ok gas_price =>
    let gas_price_gwei : ℚ := (gas_price : ℚ) / 10 ^ 9
    match (if amount0.isNone || include_fees
          then env.estimate_full.map Option.some
          else Except.ok amount0) with
    | Except.error e => Except.error (e, amount0)
    | Except.ok amount1 =>
      match env.quote with
      | Except.error e => Except.error (e, amount1)
      | Except.ok q =>
        match env.tx_params with
        | Except.error e => Except.error (e, amount1)
        | Except.ok _ =>
          match env.gas_estimate with
          | Except.error e => Except.error (e, amount1)
          | Except.ok gas_estimate =>
            let gas_fee_wei : ℤ := gas_estimate * gas_price
            let gas_fee_eth : ℚ := (gas_fee_wei : ℚ) / 10 ^ 18
            let bridge_fee_eth : ℚ := (q.message_fee0 : ℚ) / 10 ^ 18
            let total_fee_eth : ℚ :=
              floatAdd (roundDouble gas_fee_eth) (roundDouble bridge_fee_eth)
            match env.send_transaction with
            | Except.error e => Except.error (e, amount1)
            | Except.ok tx_hash =>
              let success : Bool := if tx_hash.isSome then env.verify else false
              let fees : ℚ × ℚ :=
                if success && tx_hash.isSome then
                  match env.receipt_gas_used with
                  | Except.ok gu =>
                    let actual_gas_fee_eth : ℚ :=
                      roundDouble (((gu.getD gas_estimate) * gas_price : ℤ) / 10 ^ 18)
                    (actual_gas_fee_eth,
                      floatAdd actual_gas_fee_eth (roundDouble bridge_fee_eth))
                  | Except.error _ => (0, total_fee_eth)
                else (roundDouble gas_fee_eth, total_fee_eth)
              let record : TxRecord := {
                amount := Option.some (match amount1 with
                  | Option.some a => PVal.float a
                  | Option.none => PVal.none)
                success := Option.some (PVal.bool success)
                error := Option.none
                timestamp := Option.some (PVal.float env.t1)
                extra := [
                  ("tx_hash", match tx_hash with
                    | Option.some h => PVal.int h
                    | Option.none => PVal.none),
                  ("from_chain", PVal.str src_chain_name),
                  ("to_chain", PVal.str dst_chain_name),
                  ("mode", PVal.str mode),
                  ("gas_price_gwei", PVal.float (roundDouble gas_price_gwei)),
                  ("gas_fee_eth", PVal.float fees.1),
                  ("bridge_fee_eth", PVal.float (roundDouble bridge_fee_eth)),
                  ("total_fee_eth", PVal.float fees.2),
                  ("eth_price_usd", PVal.float env.eth_price_usd),
                  ("total_fee_usd", PVal.float (floatMul fees.2 env.eth_price_usd)),
                  ("message_fee_wei", PVal.int q.message_fee0),
                  ("duration", PVal.float (env.t1 - env.t0))] }
              Except.ok (success, record)

/-- The error record built by the `except` handler of `bridge` (source lines
239-247). -/
def bridge_error_record (env : BridgeEnv) (src_chain_name dst_chain_name : String)
    (mode : String) (msg : String) (amt : Option ℚ) : TxRecord := {
  amount := Option.some (match amt with
    | Option.some a => PVal.float a
    | Option.none => PVal.none)
  success := Option.some (PVal.bool false)
  error := Option.some (PVal.str msg)
  timestamp := Option.some (PVal.float env.t1)
  extra := [
    ("from_chain", PVal.str src_chain_name),
    ("to_chain", PVal.str dst_chain_name),
    ("mode", PVal.str mode)] }

/-- Source `Stargate.bridge`: runs the body; on success records `tx_data` and
returns the confirmation flag, and on any exception records a failed attempt
with the error message and returns `False`. Its return type (`Bool × DB`, not
`Except ...`) is the model-level statement that no exception escapes. -/
def bridge (env : BridgeEnv) (src_chain_name dst_chain_name addr : String)
    (amount0 : Option ℚ) (mode : String) (include_fees : Bool) (db : DB) :
    Bool × DB :=
  match bridge_body env src_chain_name dst_chain_name amount0 mode include_fees with
  | Except.ok (success, record) =>
    (success, (add_transaction env.iso_now env.save_ok db addr record).2)
  | Except.error (msg, amt) =>
    (false, (add_transaction env.iso_now env.save_ok db addr
      (bridge_error_record env src_chain_name dst_chain_name mode msg amt)).2)

/-- Source dataclass `Chain` (connection details are opaque strings here). -/
structure Chain where
  name : String
  chain_id : Option ℤ := Option.none
  coin_symbol : Option String := Option.none
  explorer : Option String := Option.none
  eip_1559 : Option Bool := Option.none
  rpc : Option String := Option.none
  lz_eid : Option ℤ := Option.none
  requires_poa_middleware : Bool := false
deriving DecidableEq

/-- Source descriptor `MAINNET` (its `rpc` comes from external configuration and
is carried as an opaque placeholder string). -/
def MAINNET : Chain := {
  name := "Mainnet"
  rpc := Option.some "MAINNET_RPC_URL"
  chain_id := Option.some 1
  lz_eid := Option.some 30101
  coin_symbol := Option.some "ETH"
  explorer := Option.some "https://etherscan.io/"
  eip_1559 := Option.some true }

/-- Source `Stargate.__init__`: raises `ValueError` when the client's chain id is
not a key of `STARGATE_ETH_NATIVE_POOL_ADDRESSES`, otherwise binds the pool
contract at the table's address. -/
def stargate_init (chain : Chain) : Except String String :=
  match chain.chain_id.bind (fun cid =>
      (STARGATE_ETH_NATIVE_POOL_ADDRESSES.find? (fun p => p.1 == cid)).map
        (fun p => p.2)) with
  | Option.some addr => Except.ok addr
  | Option.none =>
    Except.error ("Chain " ++ chain.name ++ " is not supported for Stargate ETH bridging")

/-- The caller's composition (source `modules/bridger.py`): `Stargate(client=client)`
is constructed first and only then is `stargate.bridge(...)` awaited; a
constructor exception therefore propagates before any bridge attempt. -/
def bridge_via_stargate (chain : Chain) (env : BridgeEnv)
    (src_chain_name dst_chain_name addr : String) (amount0 : Option ℚ)
    (mode : String) (include_fees : Bool) (db : DB) : Except String Bool × DB :=
  match stargate_init chain with
  | Except.error e => (Except.error e, db)
  | Except.ok _ =>
    let r := bridge env src_chain_name dst_chain_name addr amount0 mode include_fees db
    (Except.ok r.1, r.2)

/-! ### Theorems -/

theorem rne_dist (x : ℚ) : |(rne x : ℚ) - x| ≤ 1/2 := by
  have hf0 : (0:ℚ) ≤ Int.fract x := Int.fract_nonneg x
  have hf1 : Int.fract x < 1 := Int.fract_lt_one x
  have hfe : Int.fract x = x - ⌊x⌋ := Int.self_sub_floor x ▸ rfl
  unfold rne
  split
  · rw [abs_sub_comm, abs_of_nonneg (by push_cast; linarith [hfe ▸ hf0])]
    push_cast
    linarith [hfe ▸ (by assumption : Int.fract x < 1/2)]
  · split
    · rw [abs_of_nonneg (by push_cast; linarith [hfe ▸ hf1])]
      push_cast
      linarith [hfe ▸ (by assumption : 1/2 < Int.fract x)]
    · have heq : Int.fract x = 1/2 := le_antisymm (not_lt.mp (by assumption)) (not_lt.mp (by assumption))
      split
      · rw [abs_sub_comm, abs_of_nonneg (by push_cast; linarith [hfe ▸ heq.ge])]
        push_cast
        linarith [hfe ▸ heq.le]
      · rw [abs_of_nonneg (by push_cast; linarith [hfe ▸ heq.le, hfe ▸ hf1])]
        push_cast
        linarith [hfe ▸ heq.ge]

theorem rne_eq_of (x : ℚ) (m : ℤ) (h : |x - (m:ℚ)| < 1/2) : rne x = m := by
  rcases abs_lt.mp h with ⟨h1, h2⟩
  by_cases hc : (m:ℚ) ≤ x
  · have hfl : ⌊x⌋ = m := Int.floor_eq_iff.mpr ⟨hc, by push_cast; linarith⟩
    have hfr : Int.fract x < 1/2 := by
      have := Int.self_sub_floor x
      rw [Int.fract, hfl]
      linarith
    unfold rne
    rw [if_pos hfr, hfl]
  · push_neg at hc
    have hfl : ⌊x⌋ = m - 1 := by
      apply Int.floor_eq_iff.mpr
      constructor
      · push_cast; linarith
      · push_cast; linarith
    have hfr : 1/2 < Int.fract x := by
      rw [Int.fract, hfl]
      push_cast
      linarith
    unfold rne
    rw [if_neg (by linarith), if_pos hfr, hfl]
    ring

theorem rne_intCast (m : ℤ) : rne (m:ℚ) = m :=
  rne_eq_of _ m (by simp)

theorem qpow_natCast (k : ℕ) : (2:ℚ) ^ (k:ℤ) = ((2 ^ k : ℕ) : ℚ) := by
  rw [zpow_natCast]
  push_cast
  ring

theorem qexp_spec (q : ℚ) (hq : 0 < q) :
    (2:ℚ) ^ qexp q ≤ q ∧ q < 2 ^ (qexp q + 1) := by
  have hnum : 0 < q.num := Rat.num_pos.mpr hq
  have hn0 : q.num.natAbs ≠ 0 := by
    simp only [Int.natAbs_ne_zero]
    exact Int.ne_of_gt hnum
  have hd0 : 0 < q.den := q.den_pos
  have hqnd : q = (q.num.natAbs : ℚ) / (q.den : ℚ) := by
    rw [Int.cast_natAbs]
    rw [abs_of_nonneg (by exact_mod_cast hnum.le)]
    exact (Rat.num_div_den q).symm
  have hdq : (0:ℚ) < (q.den:ℚ) := by exact_mod_cast hd0
  have h1 : (2:ℕ) ^ Nat.log 2 q.num.natAbs ≤ q.num.natAbs := Nat.pow_log_le_self 2 hn0
  have h2 : q.num.natAbs < 2 ^ (Nat.log 2 q.num.natAbs + 1) :=
    Nat.lt_pow_succ_log_self one_lt_two _
  have h3 : (2:ℕ) ^ Nat.log 2 q.den ≤ q.den := Nat.pow_log_le_self 2 (by omega)
  have h4 : q.den < 2 ^ (Nat.log 2 q.den + 1) := Nat.lt_pow_succ_log_self one_lt_two _
  have q1 : (2:ℚ) ^ (Nat.log 2 q.num.natAbs : ℤ) ≤ (q.num.natAbs : ℚ) := by
    rw [qpow_natCast]
    exact_mod_cast h1
  have q2 : (q.num.natAbs : ℚ) < (2:ℚ) ^ ((Nat.log 2 q.num.natAbs : ℤ) + 1) := by
    rw [show ((Nat.log 2 q.num.natAbs : ℤ) + 1) = ((Nat.log 2 q.num.natAbs + 1 : ℕ) : ℤ) by
      push_cast; ring]
    rw [qpow_natCast]
    exact_mod_cast h2
  have q3 : (2:ℚ) ^ (Nat.log 2 q.den : ℤ) ≤ (q.den : ℚ) := by
    rw [qpow_natCast]
    exact_mod_cast h3
  have q4 : (q.den : ℚ) < (2:ℚ) ^ ((Nat.log 2 q.den : ℤ) + 1) := by
    rw [show ((Nat.log 2 q.den : ℤ) + 1) = ((Nat.log 2 q.den + 1 : ℕ) : ℤ) by push_cast; ring]
    rw [qpow_natCast]
    exact_mod_cast h4
  unfold qexp
  set A : ℤ := (Nat.log 2 q.num.natAbs : ℤ) with hA
  set B : ℤ := (Nat.log 2 q.den : ℤ) with hB
  set N : ℚ := (q.num.natAbs : ℚ) with hN
  set D : ℚ := (q.den : ℚ) with hD
  -- upper bound : q < 2 ^ (A - B + 1)
  have hub : q < (2:ℚ) ^ (A - B + 1) := by
    rw [hqnd, div_lt_iff₀ hdq]
    calc N < (2:ℚ) ^ (A + 1) := q2
    _ = (2:ℚ) ^ (A - B + 1) * (2:ℚ) ^ B := by
        rw [← zpow_add₀ (two_ne_zero : (2:ℚ) ≠ 0)]
        congr 1
        ring
    _ ≤ (2:ℚ) ^ (A - B + 1) * D := by
        exact mul_le_mul_of_nonneg_left q3 (zpow_nonneg (by norm_num) _)
  -- strict lower bound : 2 ^ (A - B - 1) < q
  have hlb : (2:ℚ) ^ (A - B - 1) < q := by
    rw [hqnd, lt_div_iff₀ hdq]
    calc (2:ℚ) ^ (A - B - 1) * D < (2:ℚ) ^ (A - B - 1) * (2:ℚ) ^ (B + 1) :=
        mul_lt_mul_of_pos_left q4 (zpow_pos (by norm_num) _)
    _ = (2:ℚ) ^ A := by
        rw [← zpow_add₀ (two_ne_zero : (2:ℚ) ≠ 0)]
        congr 1
        ring
    _ ≤ N := q1
  split
  · exact ⟨by assumption, hub⟩
  · refine ⟨hlb.le, ?_⟩
    rw [show A - B - 1 + 1 = A - B by ring]
    exact lt_of_not_ge (by assumption)

theorem qexp_unique (q : ℚ) (e : ℤ) (hq : 0 < q)
    (h1 : (2:ℚ) ^ e ≤ q) (h2 : q < 2 ^ (e + 1)) : qexp q = e := by
  obtain ⟨l, u⟩ := qexp_spec q hq
  by_contra hne
  rcases lt_or_gt_of_ne hne with hlt | hgt
  · have : qexp q + 1 ≤ e := by omega
    have : (2:ℚ) ^ (qexp q + 1) ≤ (2:ℚ) ^ e :=
      zpow_le_zpow_right₀ (by norm_num) this
    linarith
  · have : e + 1 ≤ qexp q := by omega
    have : (2:ℚ) ^ (e + 1) ≤ (2:ℚ) ^ qexp q :=
      zpow_le_zpow_right₀ (by norm_num) this
    linarith

theorem roundPos_eq_of (q : ℚ) (e m : ℤ) (hq : 0 < q)
    (h1 : (2:ℚ) ^ e ≤ q) (h2 : q < 2 ^ (e + 1))
    (h3 : |q / 2 ^ (e - 52) - (m:ℚ)| < 1/2) :
    roundPos q = (m:ℚ) * 2 ^ (e - 52) := by
  unfold roundPos
  rw [qexp_unique q e hq h1 h2, rne_eq_of _ m h3]

theorem roundPos_dist (q : ℚ) (hq : 0 < q) :
    |roundPos q - q| ≤ 2 ^ (qexp q - 53) := by
  unfold roundPos
  set e : ℤ := qexp q - 52 with he
  have hpe : (0:ℚ) < 2 ^ e := zpow_pos (by norm_num) _
  have key : |(rne (q / 2 ^ e) : ℚ) - q / 2 ^ e| ≤ 1/2 := rne_dist _
  have expand : (rne (q / 2 ^ e) : ℚ) * 2 ^ e - q
      = ((rne (q / 2 ^ e) : ℚ) - q / 2 ^ e) * 2 ^ e := by
    field_simp
  rw [expand, abs_mul, abs_of_pos hpe]
  calc |(rne (q / 2 ^ e) : ℚ) - q / 2 ^ e| * 2 ^ e ≤ (1/2) * 2 ^ e := by
        apply mul_le_mul_of_nonneg_right key hpe.le
  _ = 2 ^ (qexp q - 53) := by
      rw [he, show qexp q - 53 = (qexp q - 52) + (-1) by ring,
        zpow_add₀ (two_ne_zero : (2:ℚ) ≠ 0)]
      norm_num
      ring

theorem qexp_pow_le (q : ℚ) (hq : 0 < q) : (2:ℚ) ^ (qexp q - 53) ≤ q / 2 ^ 53 := by
  have h := (qexp_spec q hq).1
  rw [show qexp q - 53 = qexp q + (-53) by ring, zpow_add₀ (two_ne_zero : (2:ℚ) ≠ 0)]
  rw [div_eq_mul_inv, ← zpow_natCast (2:ℚ) 53, ← zpow_neg]
  exact mul_le_mul_of_nonneg_right h (zpow_nonneg (by norm_num) _)

theorem roundPos_le (q : ℚ) (hq : 0 < q) : roundPos q ≤ q + q / 2 ^ 53 := by
  have h1 := roundPos_dist q hq
  have h2 := qexp_pow_le q hq
  have := abs_le.mp h1
  linarith [this.2]

theorem roundPos_ge (q : ℚ) (hq : 0 < q) : q - q / 2 ^ 53 ≤ roundPos q := by
  have h1 := roundPos_dist q hq
  have h2 := qexp_pow_le q hq
  have := abs_le.mp h1
  linarith [this.1]

theorem roundPos_pos (q : ℚ) (hq : 0 < q) : 0 < roundPos q := by
  have := roundPos_ge q hq
  have hd : q / 2 ^ 53 < q := by
    apply div_lt_self hq
    norm_num
  linarith

theorem roundDouble_pos_eq (q : ℚ) (hq : 0 < q) : roundDouble q = roundPos q := by
  unfold roundDouble
  rw [if_pos hq]

theorem roundDouble_zero : roundDouble 0 = 0 := by
  unfold roundDouble
  norm_num

theorem roundDouble_le (q : ℚ) (hq : 0 ≤ q) : roundDouble q ≤ q + q / 2 ^ 53 := by
  rcases eq_or_lt_of_le hq with h | h
  · rw [← h, roundDouble_zero]
    norm_num
  · rw [roundDouble_pos_eq q h]
    exact roundPos_le q h

theorem roundDouble_nonneg (q : ℚ) (hq : 0 ≤ q) : 0 ≤ roundDouble q := by
  rcases eq_or_lt_of_le hq with h | h
  · rw [← h, roundDouble_zero]
  · rw [roundDouble_pos_eq q h]
    exact (roundPos_pos q h).le

theorem roundPos_int (z : ℤ) (h0 : 0 < z) (h1 : z ≤ 2 ^ 53) : roundPos (z:ℚ) = z := by
  have hq : (0:ℚ) < (z:ℚ) := by exact_mod_cast h0
  obtain ⟨l, u⟩ := qexp_spec (z:ℚ) hq
  have hzq : (z:ℚ) ≤ 9007199254740992 := by
    have h1' : z ≤ 9007199254740992 := by norm_num at h1; exact h1
    exact_mod_cast h1'
  have he53 : qexp (z:ℚ) ≤ 53 := by
    by_contra hgt
    push_neg at hgt
    have h54 : (2:ℚ) ^ (54:ℤ) ≤ (2:ℚ) ^ qexp (z:ℚ) :=
      zpow_le_zpow_right₀ (by norm_num) (by omega)
    have h54v : (2:ℚ) ^ (54:ℤ) = 18014398509481984 := by norm_num
    linarith [le_trans h54 l]
  rcases le_or_lt (qexp (z:ℚ)) 52 with hle | hgt
  · -- z * 2 ^ (52 - e) is an integer mantissa
    have hk : (((52 - qexp (z:ℚ)).toNat : ℕ) : ℤ) = 52 - qexp (z:ℚ) :=
      Int.toNat_of_nonneg (by omega)
    have h2ne : (2:ℚ) ^ (qexp (z:ℚ) - 52) ≠ 0 := by positivity
    have hmz : (z:ℚ) / 2 ^ (qexp (z:ℚ) - 52)
        = ((z * 2 ^ (52 - qexp (z:ℚ)).toNat : ℤ) : ℚ) := by
      rw [div_eq_iff h2ne]
      push_cast
      rw [← zpow_natCast (2:ℚ) ((52 - qexp (z:ℚ)).toNat), hk, mul_assoc,
        ← zpow_add₀ (two_ne_zero : (2:ℚ) ≠ 0)]
      rw [show 52 - qexp (z:ℚ) + (qexp (z:ℚ) - 52) = 0 by ring, zpow_zero, mul_one]
    have hres := roundPos_eq_of (z:ℚ) (qexp (z:ℚ)) (z * 2 ^ (52 - qexp (z:ℚ)).toNat) hq l u
      (by rw [hmz]; simp)
    rw [hres, ← hmz]
    field_simp
  · have he53' : qexp (z:ℚ) = 53 := by omega
    have hzge : (9007199254740992:ℚ) ≤ (z:ℚ) := by
      have := he53' ▸ l
      have hv : (2:ℚ) ^ (53:ℤ) = 9007199254740992 := by norm_num
      linarith [hv ▸ this]
    have hz53 : (z:ℚ) = 9007199254740992 := le_antisymm hzq hzge
    have hmz : (z:ℚ) / 2 ^ ((53:ℤ) - 52) = ((4503599627370496 : ℤ) : ℚ) := by
      rw [hz53]
      norm_num
    have hres := roundPos_eq_of (z:ℚ) 53 4503599627370496 hq (he53' ▸ l) (he53' ▸ u)
      (by rw [hmz]; simp)
    rw [hres, hz53]
    norm_num

theorem roundDouble_int (z : ℤ) (h0 : 0 ≤ z) (h1 : z ≤ 2 ^ 53) : roundDouble (z:ℚ) = z := by
  rcases eq_or_lt_of_le h0 with h | h
  · rw [← h]
    exact roundDouble_zero
  · rw [roundDouble_pos_eq _ (by exact_mod_cast h)]
    exact roundPos_int z h h1

theorem qexp_le_of_lt (q : ℚ) (e : ℤ) (hq : 0 < q) (hu : q < 2 ^ (e + 1)) :
    qexp q ≤ e := by
  by_contra hgt
  push_neg at hgt
  have : (2:ℚ) ^ (e + 1) ≤ (2:ℚ) ^ qexp q := zpow_le_zpow_right₀ (by norm_num) (by omega)
  linarith [(qexp_spec q hq).1]

theorem roundPos_eq_target (q t : ℚ) (m : ℤ) (hq : 0 < q)
    (ht : t = (m:ℚ) * 2 ^ (qexp q - 52))
    (hdist : |q - t| < 2 ^ (qexp q - 53)) : roundPos q = t := by
  obtain ⟨l, u⟩ := qexp_spec q hq
  have hpe : (0:ℚ) < 2 ^ (qexp q - 52) := zpow_pos (by norm_num) _
  have hx : |q / 2 ^ (qexp q - 52) - (m:ℚ)| < 1/2 := by
    have hexpand : q / 2 ^ (qexp q - 52) - (m:ℚ) = (q - t) / 2 ^ (qexp q - 52) := by
      rw [ht]
      field_simp
      ring
    rw [hexpand, abs_div, abs_of_pos hpe, div_lt_iff₀ hpe]
    calc |q - t| < 2 ^ (qexp q - 53) := hdist
    _ = (1/2) * 2 ^ (qexp q - 52) := by
        rw [show qexp q - 53 = (qexp q - 52) + (-1) by ring,
          zpow_add₀ (two_ne_zero : (2:ℚ) ≠ 0)]
        norm_num
        ring
  rw [roundPos_eq_of q (qexp q) m hq l u hx, ht]

theorem roundPos_eq_int_of (q : ℚ) (M : ℤ) (hq : 0 < q) (hqlt : q < 2 ^ (53:ℤ))
    (hdist : |q - (M:ℚ)| < q / 2 ^ 54) : roundPos q = (M:ℚ) := by
  have hle : qexp q ≤ 52 := qexp_le_of_lt q 52 hq (by exact_mod_cast hqlt)
  obtain ⟨l, u⟩ := qexp_spec q hq
  have hk : (((52 - qexp q).toNat : ℕ) : ℤ) = 52 - qexp q := Int.toNat_of_nonneg (by omega)
  have ht : (M:ℚ) = ((M * 2 ^ (52 - qexp q).toNat : ℤ) : ℚ) * 2 ^ (qexp q - 52) := by
    push_cast
    rw [← zpow_natCast (2:ℚ) ((52 - qexp q).toNat), hk, mul_assoc,
      ← zpow_add₀ (two_ne_zero : (2:ℚ) ≠ 0)]
    rw [show 52 - qexp q + (qexp q - 52) = 0 by ring, zpow_zero, mul_one]
  apply roundPos_eq_target q (M:ℚ) (M * 2 ^ (52 - qexp q).toNat) hq ht
  calc |q - (M:ℚ)| < q / 2 ^ 54 := hdist
  _ < 2 ^ (qexp q + 1) / 2 ^ 54 := by gcongr
  _ = 2 ^ (qexp q - 53) := by
      rw [div_eq_mul_inv, ← zpow_natCast (2:ℚ) 54, ← zpow_neg,
        ← zpow_add₀ (two_ne_zero : (2:ℚ) ≠ 0)]
      congr 1
      push_cast
      ring

theorem floor_roundPos (q δ : ℚ) (e : ℤ) (hq : 0 < q) (hu : q < 2 ^ (e + 1))
    (hl : (⌊q⌋ : ℚ) + δ ≤ q) (hr : q + δ ≤ (⌊q⌋ : ℚ) + 1)
    (hδ : (2:ℚ) ^ (e - 53) < δ) :
    ⌊roundPos q⌋ = ⌊q⌋ := by
  have hspec := qexp_spec q hq
  have hee : qexp q ≤ e := by
    by_contra hgt
    push_neg at hgt
    have : (2:ℚ) ^ (e + 1) ≤ (2:ℚ) ^ (qexp q) := zpow_le_zpow_right₀ (by norm_num) (by omega)
    linarith [hspec.1]
  have herr : |roundPos q - q| ≤ 2 ^ (e - 53) := by
    calc |roundPos q - q| ≤ 2 ^ (qexp q - 53) := roundPos_dist q hq
    _ ≤ 2 ^ (e - 53) := zpow_le_zpow_right₀ (by norm_num) (by omega)
  have habs := abs_le.mp herr
  apply Int.floor_eq_iff.mpr
  constructor
  · linarith [habs.1]
  · push_cast
    linarith [habs.2]

theorem GAS_MULTIPLIER_val : GAS_MULTIPLIER = 5404319552844595 / 4503599627370496 := by
  unfold GAS_MULTIPLIER
  rw [roundDouble_pos_eq _ (by norm_num)]
  have h := roundPos_eq_of (6/5) 0 5404319552844595 (by norm_num) (by norm_num)
    (by norm_num) (by rw [abs_lt]; constructor <;> norm_num)
  rw [h]
  norm_num

theorem GAS_FEES_ESTIMATION_MULTIPLIER_val :
    GAS_FEES_ESTIMATION_MULTIPLIER = 8917127262193582 / 9007199254740992 := by
  unfold GAS_FEES_ESTIMATION_MULTIPLIER
  rw [roundDouble_pos_eq _ (by norm_num)]
  have h := roundPos_eq_of (99/100) (-1) 8917127262193582 (by norm_num) (by norm_num)
    (by norm_num) (by rw [abs_lt]; constructor <;> norm_num)
  rw [h]
  norm_num

theorem pyInt_eq_floor (x : ℚ) (h : 0 ≤ x) : pyInt x = ⌊x⌋ := by
  unfold pyInt
  rw [if_pos h]

theorem pyInt_intCast (z : ℤ) : pyInt (z:ℚ) = z := by
  unfold pyInt
  split
  · exact Int.floor_intCast z
  · exact Int.ceil_intCast z

theorem floor_eq_of (x : ℚ) (n : ℤ) (h1 : (n:ℚ) ≤ x) (h2 : x < (n:ℚ) + 1) : ⌊x⌋ = n := by
  apply Int.floor_eq_iff.mpr
  refine ⟨h1, ?_⟩
  push_cast
  exact h2

/-- C3 counterexample: the code computes `int(amount * 99 / 100)` with float true
division, so at `amount = 200000000000001` wei the result is `198000000000001`,
one more than the exact `floor(amount * 99 / 100) = 198000000000000` the claim
asserts for every non-negative amount. -/
theorem c3_min_amount_counterexample :
    min_amount_after_slippage 200000000000001
      ≠ ⌊(200000000000001 * (100 - 1) : ℚ) / 100⌋ ∧
    min_amount_after_slippage 200000000000001 = 198000000000001 ∧
    ⌊(200000000000001 * (100 - 1) : ℚ) / 100⌋ = 198000000000000 := by
  have hfl : ⌊(200000000000001 * (100 - 1) : ℚ) / 100⌋ = 198000000000000 := by
    apply floor_eq_of <;> norm_num
  have hval : ((200000000000001 * (100 - MAX_SLIPPAGE) : ℤ) : ℚ) / ((100:ℤ):ℚ)
      = 19800000000000099 / 100 := by
    unfold MAX_SLIPPAGE
    norm_num
  have hcode : min_amount_after_slippage 200000000000001 = 198000000000001 := by
    unfold min_amount_after_slippage pyTrueDiv
    rw [hval, roundDouble_pos_eq _ (by norm_num)]
    rw [roundPos_eq_of (19800000000000099/100) 47 6336000000000032 (by norm_num)
      (by norm_num) (by norm_num) (by rw [abs_lt]; constructor <;> norm_num)]
    rw [show ((6336000000000032:ℤ):ℚ) * 2 ^ ((47:ℤ) - 52) = ((198000000000001:ℤ):ℚ) by
      norm_num]
    exact pyInt_intCast _
  refine ⟨?_, hcode, hfl⟩
  rw [hcode, hfl]
  norm_num

/-- C3 amended: `minAmountAfterSlippage` equals `int` of the binary64 rounding of
`amount * 99 / 100`; that agrees with exact `floor(amount * 99 / 100)` for all
amounts up to `2^46` wei (the float quotient then stays in a binade whose
half-ulp is below `1/100`), and for every non-negative amount the result never
exceeds the amount. -/
theorem c3_min_amount_slippage (a : ℤ) (h0 : 0 ≤ a) :
    (a ≤ 2 ^ 46 → min_amount_after_slippage a = ⌊(99 * (a:ℚ)) / 100⌋) ∧
    min_amount_after_slippage a ≤ a := by
  have hdef : min_amount_after_slippage a = pyInt (roundDouble ((99 * (a:ℚ)) / 100)) := by
    unfold min_amount_after_slippage pyTrueDiv MAX_SLIPPAGE
    congr 2
    push_cast
    ring
  rcases eq_or_lt_of_le h0 with hz | hpos
  · rw [hdef, ← hz]
    norm_num [roundDouble_zero]
    have hp0 : pyInt 0 = 0 := by
      unfold pyInt
      norm_num
    exact ⟨hp0, le_of_eq hp0⟩
  · have haq : (0:ℚ) < (a:ℚ) := by exact_mod_cast hpos
    have hq : (0:ℚ) < (99 * (a:ℚ)) / 100 := by positivity
    constructor
    · intro h46
      -- decompose 99 a = 100 K + r
      have hk : 100 * ((99 * a) / 100) + (99 * a) % 100 = 99 * a :=
        Int.ediv_add_emod (99 * a) 100
      have hr0 : 0 ≤ (99 * a) % 100 := Int.emod_nonneg _ (by norm_num)
      have hr1 : (99 * a) % 100 < 100 := Int.emod_lt_of_pos _ (by norm_num)
      have hq_eq : (99 * (a:ℚ)) / 100
          = (((99 * a) / 100 : ℤ) : ℚ) + (((99 * a) % 100 : ℤ) : ℚ) / 100 := by
        have hkq : (100:ℚ) * (((99 * a) / 100 : ℤ) : ℚ) + (((99 * a) % 100 : ℤ) : ℚ)
            = 99 * (a:ℚ) := by exact_mod_cast hk
        field_simp
        linarith
      have hfloor : ⌊(99 * (a:ℚ)) / 100⌋ = (99 * a) / 100 := by
        apply floor_eq_of
        · rw [hq_eq]
          have : (0:ℚ) ≤ (((99 * a) % 100 : ℤ) : ℚ) / 100 := by
            apply div_nonneg _ (by norm_num)
            exact_mod_cast hr0
          linarith
        · rw [hq_eq]
          have : (((99 * a) % 100 : ℤ) : ℚ) / 100 < 1 := by
            rw [div_lt_one (by norm_num)]
            exact_mod_cast lt_of_lt_of_le hr1 (by norm_num)
          linarith
      by_cases hr : (99 * a) % 100 = 0
      · -- the quotient is an exact integer below 2^53 : rounding is exact
        have hqint : (99 * (a:ℚ)) / 100 = (((99 * a) / 100 : ℤ) : ℚ) := by
          rw [hq_eq, hr]
          norm_num
        have hKbound : (99 * a) / 100 ≤ 2 ^ 53 := by omega
        have hK0 : 0 ≤ (99 * a) / 100 := by positivity
        rw [hdef, hqint, roundDouble_int _ hK0 hKbound, pyInt_intCast, Int.floor_intCast]
      · -- fractional part at least 1/100 : rounding keeps the floor
        have hu : (99 * (a:ℚ)) / 100 < 2 ^ ((45:ℤ) + 1) := by
          have : (a:ℚ) ≤ 70368744177664 := by exact_mod_cast h46
          rw [show ((2:ℚ) ^ ((45:ℤ) + 1)) = 70368744177664 by norm_num]
          nlinarith
        have hfr1 : (1:ℚ) ≤ (((99 * a) % 100 : ℤ) : ℚ) := by exact_mod_cast by omega
        have hfr2 : (((99 * a) % 100 : ℤ) : ℚ) ≤ 99 := by exact_mod_cast by omega
        have hl : (⌊(99 * (a:ℚ)) / 100⌋ : ℚ) + 1/100 ≤ (99 * (a:ℚ)) / 100 := by
          rw [hfloor, hq_eq]
          have : (1:ℚ)/100 ≤ (((99 * a) % 100 : ℤ) : ℚ) / 100 := by linarith [hfr1]
          linarith
        have hrr : (99 * (a:ℚ)) / 100 + 1/100 ≤ (⌊(99 * (a:ℚ)) / 100⌋ : ℚ) + 1 := by
          rw [hfloor, hq_eq]
          have : (((99 * a) % 100 : ℤ) : ℚ) / 100 ≤ 99/100 := by linarith [hfr2]
          linarith
        have hmain := floor_roundPos ((99 * (a:ℚ)) / 100) (1/100) 45 hq hu hl hrr
          (by norm_num)
        rw [hdef, roundDouble_pos_eq _ hq,
          pyInt_eq_floor _ (roundPos_pos _ hq).le, hmain]
    · -- the result never exceeds the amount
      rw [hdef, roundDouble_pos_eq _ hq, pyInt_eq_floor _ (roundPos_pos _ hq).le]
      have h1 := roundPos_le _ hq
      have h2 : (99 * (a:ℚ)) / 100 + ((99 * (a:ℚ)) / 100) / 2 ^ 53 < (a:ℚ) := by
        nlinarith
      have : ⌊roundPos ((99 * (a:ℚ)) / 100)⌋ < a := by
        apply Int.floor_lt.mpr
        calc roundPos ((99 * (a:ℚ)) / 100) ≤ (99 * (a:ℚ)) / 100 + ((99 * (a:ℚ)) / 100) / 2 ^ 53 := h1
        _ < (a:ℚ) := h2
      omega

/-- C3 witness: the amended statement evaluated at the concrete amount 12345. -/
theorem c3_min_amount_slippage_witness :
    (0:ℤ) ≤ 12345 ∧ min_amount_after_slippage 12345 = 12221 ∧
    min_amount_after_slippage 12345 ≤ 12345 := by
  have h := c3_min_amount_slippage 12345 (by norm_num)
  refine ⟨by norm_num, ?_, h.2⟩
  rw [h.1 (by norm_num)]
  apply floor_eq_of <;> norm_num

/-- C4 counterexample: the code computes `int(baseFee * 1.2)` in binary64, so at
`baseFee = 8000000000000001` the computed base fee is `9600000000000000` while
exact `floor(baseFee * 1.2)` is `9600000000000001`: `maxFeePerGas` does not equal
`floor(baseFee * 1.2) + priorityFee` for every non-negative integer base fee. -/
theorem c4_max_fee_counterexample :
    max_fee_per_gas 8000000000000001 0 ≠ ⌊(8000000000000001:ℚ) * (6/5)⌋ + 0 ∧
    max_fee_per_gas 8000000000000001 0 = 9600000000000000 ∧
    ⌊(8000000000000001:ℚ) * (6/5)⌋ = 9600000000000001 := by
  have hfl : ⌊(8000000000000001:ℚ) * (6/5)⌋ = 9600000000000001 := by
    apply floor_eq_of <;> norm_num
  have hcode : max_fee_per_gas 8000000000000001 0 = 9600000000000000 := by
    unfold max_fee_per_gas eip1559_base_fee floatMul
    rw [roundDouble_int 8000000000000001 (by norm_num) (by norm_num), GAS_MULTIPLIER_val]
    push_cast
    rw [roundDouble_pos_eq _ (by norm_num)]
    rw [roundPos_eq_of ((8000000000000001:ℚ) * (5404319552844595 / 4503599627370496))
      53 4800000000000000 (by norm_num) (by norm_num) (by norm_num)
      (by rw [abs_lt]; constructor <;> norm_num)]
    rw [show ((4800000000000000:ℤ):ℚ) * 2 ^ ((53:ℤ) - 52) = ((9600000000000000:ℤ):ℚ) by
      norm_num]
    rw [pyInt_intCast]
    norm_num
  refine ⟨?_, hcode, hfl⟩
  rw [hcode, hfl]
  norm_num

/-- C4 amended: `maxFeePerGas` equals `int` of the binary64 product
`float(baseFee) * float(1.2)` plus the priority fee; for every base fee up to
`2^49` (far above any realistic base fee) this agrees with exact
`floor(baseFee * 1.2) + priorityFee`, but not for all non-negative integers. -/
theorem c4_max_fee (b p : ℤ) (h0 : 0 ≤ b) (h49 : b ≤ 2 ^ 49) :
    max_fee_per_gas b p = ⌊(b:ℚ) * (6/5)⌋ + p := by
  suffices h : eip1559_base_fee b = ⌊(b:ℚ) * (6/5)⌋ by
    unfold max_fee_per_gas
    rw [h]
  rcases eq_or_lt_of_le h0 with hz | hpos
  · rw [← hz]
    unfold eip1559_base_fee floatMul
    rw [show ((0:ℤ):ℚ) = 0 by norm_num, roundDouble_zero, zero_mul, roundDouble_zero]
    unfold pyInt
    norm_num
  · have hbq : (0:ℚ) < (b:ℚ) := by exact_mod_cast hpos
    have hb49 : (b:ℚ) ≤ 562949953421312 := by exact_mod_cast h49
    have hdef : eip1559_base_fee b
        = pyInt (roundDouble ((b:ℚ) * (5404319552844595 / 4503599627370496))) := by
      unfold eip1559_base_fee floatMul
      rw [roundDouble_int b h0 (by omega), GAS_MULTIPLIER_val]
    have hP : (0:ℚ) < (b:ℚ) * (5404319552844595 / 4503599627370496) := by positivity
    -- decompose 6 b = 5 M + s
    have hk : 5 * ((6 * b) / 5) + (6 * b) % 5 = 6 * b := Int.ediv_add_emod (6 * b) 5
    have hs0 : 0 ≤ (6 * b) % 5 := Int.emod_nonneg _ (by norm_num)
    have hs1 : (6 * b) % 5 < 5 := Int.emod_lt_of_pos _ (by norm_num)
    have hkq : (5:ℚ) * (((6 * b) / 5 : ℤ) : ℚ) + (((6 * b) % 5 : ℤ) : ℚ) = 6 * (b:ℚ) := by
      exact_mod_cast hk
    have hPM : (b:ℚ) * (5404319552844595 / 4503599627370496) - (((6 * b) / 5 : ℤ) : ℚ)
        = ((((6 * b) % 5 : ℤ) : ℚ) * 4503599627370496 - (b:ℚ)) / 22517998136852480 := by
      field_simp
      linarith
    have hM0 : 0 ≤ (6 * b) / 5 := by positivity
    by_cases hs : (6 * b) % 5 = 0
    · -- the exact product is the integer M : the rounding returns M
      have hsq : (((6 * b) % 5 : ℤ) : ℚ) = 0 := by rw [hs]; norm_num
      have htgt : (b:ℚ) * (6/5) = (((6 * b) / 5 : ℤ) : ℚ) := by
        rw [hsq] at hkq
        linarith
      have hqlt : (b:ℚ) * (5404319552844595 / 4503599627370496) < 2 ^ ((53:ℤ)) := by
        rw [show ((2:ℚ) ^ (53:ℤ)) = 9007199254740992 by norm_num]
        nlinarith
      have hdist : |(b:ℚ) * (5404319552844595 / 4503599627370496) - (((6 * b) / 5 : ℤ) : ℚ)|
          < (b:ℚ) * (5404319552844595 / 4503599627370496) / 2 ^ 54 := by
        rw [hPM, hsq]
        rw [abs_of_nonpos (by linarith [hbq])]
        rw [show (b:ℚ) * (5404319552844595 / 4503599627370496) / 2 ^ 54
            = (b:ℚ) * (5404319552844595 / 81129638414606681695789005144064) by ring]
        rw [show -((0 * (4503599627370496:ℚ) - (b:ℚ)) / 22517998136852480)
            = (b:ℚ) * (1 / 22517998136852480) by ring]
        apply mul_lt_mul_of_pos_left _ hbq
        norm_num
      rw [hdef, roundDouble_pos_eq _ hP, roundPos_eq_int_of _ _ hP hqlt hdist,
        pyInt_intCast, htgt, Int.floor_intCast]
    · -- fractional case : the product keeps the same floor
      have hfr1 : (1:ℚ) ≤ (((6 * b) % 5 : ℤ) : ℚ) := by exact_mod_cast by omega
      have hfr2 : (((6 * b) % 5 : ℤ) : ℚ) ≤ 4 := by exact_mod_cast by omega
      have hPMlb : (7:ℚ)/40 ≤ (b:ℚ) * (5404319552844595 / 4503599627370496)
          - (((6 * b) / 5 : ℤ) : ℚ) := by
        rw [hPM]
        rw [show (7:ℚ)/40 = (1 * 4503599627370496 - 562949953421312) / 22517998136852480 by
          norm_num]
        apply div_le_div_of_nonneg_right ?_ (by norm_num)
        · nlinarith
      have hPMub : (b:ℚ) * (5404319552844595 / 4503599627370496)
          - (((6 * b) / 5 : ℤ) : ℚ) ≤ 4/5 := by
        rw [hPM]
        rw [show (4:ℚ)/5 = (4 * 4503599627370496 - 0) / 22517998136852480 by norm_num]
        apply div_le_div_of_nonneg_right ?_ (by norm_num)
        · nlinarith
      have hfloorP : ⌊(b:ℚ) * (5404319552844595 / 4503599627370496)⌋ = (6 * b) / 5 := by
        apply floor_eq_of
        · linarith
        · linarith
      have hfloorT : ⌊(b:ℚ) * (6/5)⌋ = (6 * b) / 5 := by
        apply floor_eq_of
        · have : (b:ℚ) * (6/5) = (((6 * b) / 5 : ℤ) : ℚ) + (((6 * b) % 5 : ℤ) : ℚ) / 5 := by
            field_simp
            linarith
          rw [this]
          have : (0:ℚ) ≤ (((6 * b) % 5 : ℤ) : ℚ) / 5 := by positivity
          linarith
        · have : (b:ℚ) * (6/5) = (((6 * b) / 5 : ℤ) : ℚ) + (((6 * b) % 5 : ℤ) : ℚ) / 5 := by
            field_simp
            linarith
          rw [this]
          have : (((6 * b) % 5 : ℤ) : ℚ) / 5 < 1 := by
            rw [div_lt_one (by norm_num)]
            linarith
          linarith
      have hu : (b:ℚ) * (5404319552844595 / 4503599627370496) < 2 ^ ((49:ℤ) + 1) := by
        rw [show ((2:ℚ) ^ ((49:ℤ) + 1)) = 1125899906842624 by norm_num]
        nlinarith
      have hl : (⌊(b:ℚ) * (5404319552844595 / 4503599627370496)⌋ : ℚ) + 1/8
          ≤ (b:ℚ) * (5404319552844595 / 4503599627370496) := by
        rw [hfloorP]
        linarith
      have hr : (b:ℚ) * (5404319552844595 / 4503599627370496) + 1/8
          ≤ (⌊(b:ℚ) * (5404319552844595 / 4503599627370496)⌋ : ℚ) + 1 := by
        rw [hfloorP]
        linarith
      have hmain := floor_roundPos ((b:ℚ) * (5404319552844595 / 4503599627370496))
        (1/8) 49 hP hu hl hr (by norm_num)
      rw [hdef, roundDouble_pos_eq _ hP, pyInt_eq_floor _ (roundPos_pos _ hP).le,
        hmain, hfloorP, hfloorT]

/-- C4 witness: the amended statement evaluated at base fee 1 gwei, priority fee 2 gwei. -/
theorem c4_max_fee_witness :
    (0:ℤ) ≤ 1000000000 ∧ (1000000000:ℤ) ≤ 2 ^ 49 ∧
    max_fee_per_gas 1000000000 2000000000 = 3200000000 := by
  refine ⟨by norm_num, by norm_num, ?_⟩
  rw [c4_max_fee 1000000000 2000000000 (by norm_num) (by norm_num)]
  have hfl : ⌊((1000000000:ℤ):ℚ) * (6/5)⌋ = 1200000000 := by
    apply floor_eq_of <;> norm_num
  rw [hfl]
  norm_num

theorem estimate_none_eq (env : EstimateEnv) :
    estimate_amount_for_full_amount_bridge env Option.none
      = roundDouble
          (floatMul
            (roundDouble ((env.balance - env.messageFee - env.gasUsed * env.gasPrice : ℤ) : ℚ))
            GAS_FEES_ESTIMATION_MULTIPLIER / 10 ^ 18) := rfl

/-- C5 counterexample: with balance 10000000000003 wei and zero messaging and gas
fees the returned amount strictly exceeds `(B - F - G) * 0.99` in coin units: the
binary64 multiply and the final `float(...)` both round upward past the bound. -/
theorem c5_estimate_counterexample :
    (10000000000003:ℚ) * (99/100) / 10 ^ 18
      < estimate_amount_for_full_amount_bridge ⟨10000000000003, 0, 0, 0⟩ Option.none := by
  rw [estimate_none_eq]
  rw [show ((10000000000003 - 0 - 0 * 0 : ℤ) : ℚ) = ((10000000000003:ℤ):ℚ) by norm_num]
  rw [roundDouble_int 10000000000003 (by norm_num) (by norm_num)]
  unfold floatMul
  rw [GAS_FEES_ESTIMATION_MULTIPLIER_val]
  push_cast
  rw [roundDouble_pos_eq (10000000000003 * (8917127262193582 / 9007199254740992))
    (by norm_num)]
  rw [roundPos_eq_of (10000000000003 * (8917127262193582 / 9007199254740992)) 43
    5068800000001521 (by norm_num) (by norm_num) (by norm_num)
    (by rw [abs_lt]; constructor <;> norm_num)]
  rw [show ((5068800000001521:ℤ):ℚ) * 2 ^ ((43:ℤ) - 52) / 10 ^ 18
      = 5068800000001521 / 512000000000000000000 by norm_num]
  rw [roundDouble_pos_eq _ (by norm_num)]
  rw [roundPos_eq_of (5068800000001521 / 512000000000000000000) (-17)
    5843928522552940 (by norm_num) (by norm_num) (by norm_num)
    (by rw [abs_lt]; constructor <;> norm_num)]
  norm_num

/-- C5 amended: the formula and the initial-amount selection are as claimed, but
the value is computed in binary64, so the guarantee holds only up to the rounding
of the three float operations: the result is at most
`(B - F - G) * 0.99 * (1 + 2^-50)` in coin units (and can exceed the exact
`(B - F - G) * 0.99` itself, per the counterexample). -/
theorem c5_estimate_amount_bound (env : EstimateEnv)
    (h : 0 ≤ env.balance - env.messageFee - env.gasUsed * env.gasPrice) :
    estimate_amount_for_full_amount_bridge env Option.none
      ≤ ((env.balance - env.messageFee - env.gasUsed * env.gasPrice : ℤ) : ℚ)
        * (99/100) * (1 + 1/2^50) / 10 ^ 18 := by
  rw [estimate_none_eq]
  set X : ℚ := ((env.balance - env.messageFee - env.gasUsed * env.gasPrice : ℤ) : ℚ) with hX
  have hX0 : (0:ℚ) ≤ X := by
    rw [hX]
    exact_mod_cast h
  set k : ℚ := 1 + 1/2^53 with hk
  have hk1 : (1:ℚ) ≤ k := by rw [hk]; norm_num
  have hk0 : (0:ℚ) < k := by linarith
  have h1 : roundDouble X ≤ X * k := by
    calc roundDouble X ≤ X + X / 2^53 := roundDouble_le X hX0
    _ = X * k := by rw [hk]; ring
  have h1' : 0 ≤ roundDouble X := roundDouble_nonneg X hX0
  have hg : GAS_FEES_ESTIMATION_MULTIPLIER ≤ 99/100 := by
    rw [GAS_FEES_ESTIMATION_MULTIPLIER_val]
    norm_num
  have hg0 : 0 ≤ GAS_FEES_ESTIMATION_MULTIPLIER := by
    rw [GAS_FEES_ESTIMATION_MULTIPLIER_val]
    norm_num
  have h2 : roundDouble X * GAS_FEES_ESTIMATION_MULTIPLIER ≤ X * k * (99/100) :=
    mul_le_mul h1 hg hg0 (by positivity)
  have h2' : 0 ≤ roundDouble X * GAS_FEES_ESTIMATION_MULTIPLIER := mul_nonneg h1' hg0
  have h3 : floatMul (roundDouble X) GAS_FEES_ESTIMATION_MULTIPLIER
      ≤ X * k * (99/100) * k := by
    unfold floatMul
    calc roundDouble (roundDouble X * GAS_FEES_ESTIMATION_MULTIPLIER)
        ≤ roundDouble X * GAS_FEES_ESTIMATION_MULTIPLIER
          + (roundDouble X * GAS_FEES_ESTIMATION_MULTIPLIER) / 2^53 := roundDouble_le _ h2'
    _ = (roundDouble X * GAS_FEES_ESTIMATION_MULTIPLIER) * k := by rw [hk]; ring
    _ ≤ X * k * (99/100) * k := mul_le_mul_of_nonneg_right h2 hk0.le
  have h3' : 0 ≤ floatMul (roundDouble X) GAS_FEES_ESTIMATION_MULTIPLIER := by
    unfold floatMul
    exact roundDouble_nonneg _ h2'
  have h4 : floatMul (roundDouble X) GAS_FEES_ESTIMATION_MULTIPLIER / 10 ^ 18
      ≤ X * k * (99/100) * k / 10 ^ 18 := by gcongr
  have h4' : (0:ℚ) ≤ floatMul (roundDouble X) GAS_FEES_ESTIMATION_MULTIPLIER / 10 ^ 18 := by
    positivity
  calc roundDouble (floatMul (roundDouble X) GAS_FEES_ESTIMATION_MULTIPLIER / 10 ^ 18)
      ≤ floatMul (roundDouble X) GAS_FEES_ESTIMATION_MULTIPLIER / 10 ^ 18
        + (floatMul (roundDouble X) GAS_FEES_ESTIMATION_MULTIPLIER / 10 ^ 18) / 2^53 :=
      roundDouble_le _ h4'
  _ = (floatMul (roundDouble X) GAS_FEES_ESTIMATION_MULTIPLIER / 10 ^ 18) * k := by
      rw [hk]; ring
  _ ≤ (X * k * (99/100) * k / 10 ^ 18) * k := mul_le_mul_of_nonneg_right h4 hk0.le
  _ = X * (99/100) * (k * k * k) / 10 ^ 18 := by ring
  _ ≤ X * (99/100) * (1 + 1/2^50) / 10 ^ 18 := by
      have hkcube : k * k * k ≤ 1 + 1/2^50 := by rw [hk]; norm_num
      have hXn : (0:ℚ) ≤ X * (99/100) := by positivity
      gcongr

/-- C5 witness: the amended bound evaluated at a realistic environment (1 ETH
balance, 0.001 ETH messaging fee, 21000 gas at 1 gwei). -/
theorem c5_estimate_amount_bound_witness :
    (0:ℤ) ≤ 1000000000000000000 - 1000000000000000 - 21000 * 1000000000 ∧
    estimate_amount_for_full_amount_bridge
        ⟨1000000000000000000, 1000000000000000, 21000, 1000000000⟩ Option.none
      ≤ ((1000000000000000000 - 1000000000000000 - 21000 * 1000000000 : ℤ) : ℚ)
        * (99/100) * (1 + 1/2^50) / 10 ^ 18 :=
  ⟨by norm_num, c5_estimate_amount_bound _ (by norm_num)⟩

/-- C2: whenever the collected priority-fee sample list is non-empty, the chosen
priority fee is the element at index `length / 2` of the sorted list (stated
against any sorted permutation of the samples, so the sortedness is meaningful
and not an artefact of the model's sort function), for odd and even lengths
alike; in particular samples `{4, 2, 1, 3}` (even length, with a failed fetch
and a legacy transaction skipped) sort to `[1, 2, 3, 4]` and yield the element
at index 2, i.e. 3, not the average of 2 and 3. -/
theorem c2_priority_fee_median :
    (∀ (txs : List (Option (Option ℤ))) (ns : Option ℤ) (l' : List ℤ),
      txs.filterMap pickSample ≠ [] →
      (txs.filterMap pickSample).Perm l' →
      l'.Sorted (· ≤ ·) →
      get_max_priority_fee_per_gas txs ns
        = l'.getD ((txs.filterMap pickSample).length / 2) 0)
    ∧ get_max_priority_fee_per_gas
        [some (some 4), some (some 2), Option.none, some Option.none,
          some (some 1), some (some 3)]
        Option.none = 3 := by
  constructor
  · intro txs ns l' hne hperm hsort
    unfold get_max_priority_fee_per_gas
    rw [if_neg (by simpa using hne)]
    have hsortEq : (txs.filterMap pickSample).insertionSort (fun a b => a ≤ b) = l' := by
      apply List.eq_of_perm_of_sorted
        ((List.perm_insertionSort _ _).trans hperm)
        (List.sorted_insertionSort _ _) hsort
    rw [hsortEq]
  · decide

/-- C2 witness: the median theorem applied to a concrete odd-length block. -/
theorem c2_priority_fee_median_witness :
    get_max_priority_fee_per_gas
      [some (some 30), Option.none, some (some 10), some Option.none, some (some 20)]
      (some 7) = 20 := by
  have h := c2_priority_fee_median.1
    [some (some 30), Option.none, some (some 10), some Option.none, some (some 20)]
    (some 7) [10, 20, 30] (by decide) (by decide) (by decide)
  rw [h]
  decide

theorem gas_loop_succ (k i : ℕ) (calls : ℕ → Except String ℤ) :
    get_gas_estimate_loop (k+1) i calls
      = match calls i with
        | Except.ok v => (Except.ok v, [])
        | Except.error e =>
          if isReorgError e then
            ((get_gas_estimate_loop k (i+1) calls).1,
              1 :: (get_gas_estimate_loop k (i+1) calls).2)
          else (Except.error e, []) := rfl

theorem gas_loop_ok (k i : ℕ) (calls : ℕ → Except String ℤ) (v : ℤ)
    (h : calls i = Except.ok v) :
    get_gas_estimate_loop (k+1) i calls = (Except.ok v, []) := by
  rw [gas_loop_succ, h]

theorem gas_loop_reorg (k i : ℕ) (calls : ℕ → Except String ℤ) (e : String)
    (h : calls i = Except.error e) (hr : isReorgError e = true) :
    get_gas_estimate_loop (k+1) i calls
      = ((get_gas_estimate_loop k (i+1) calls).1,
          1 :: (get_gas_estimate_loop k (i+1) calls).2) := by
  rw [gas_loop_succ, h]
  simp only [hr, if_true]

theorem gas_loop_other (k i : ℕ) (calls : ℕ → Except String ℤ) (e : String)
    (h : calls i = Except.error e) (hr : isReorgError e = false) :
    get_gas_estimate_loop (k+1) i calls = (Except.error e, []) := by
  rw [gas_loop_succ, h]
  simp only [hr, Bool.false_eq_true, if_false]

/-- C6: gas estimation retries up to 3 times on the reorg-class error with a
1-second pause between attempts, propagates any other error immediately, and
after three guarded reorg failures surfaces the fourth, unguarded attempt;
in particular two reorg errors followed by a success yield the third attempt's
value without raising, after exactly two 1-second sleeps. -/
theorem c6_gas_estimate_retry :
    (∀ (calls : ℕ → Except String ℤ) (e0 e1 : String) (v : ℤ),
      calls 0 = Except.error e0 → isReorgError e0 = true →
      calls 1 = Except.error e1 → isReorgError e1 = true →
      calls 2 = Except.ok v →
      get_gas_estimate calls = (Except.ok v, [1, 1]))
    ∧ (∀ (calls : ℕ → Except String ℤ) (e : String),
      calls 0 = Except.error e → isReorgError e = false →
      get_gas_estimate calls = (Except.error e, []))
    ∧ (∀ (calls : ℕ → Except String ℤ) (e0 e1 e2 : String),
      calls 0 = Except.error e0 → isReorgError e0 = true →
      calls 1 = Except.error e1 → isReorgError e1 = true →
      calls 2 = Except.error e2 → isReorgError e2 = true →
      get_gas_estimate calls = (calls 3, [1, 1, 1])) := by
  refine ⟨?_, ?_, ?_⟩
  · intro calls e0 e1 v h0 hr0 h1 hr1 h2
    calc get_gas_estimate calls = get_gas_estimate_loop (2+1) 0 calls := rfl
    _ = ((get_gas_estimate_loop (1+1) 1 calls).1,
          1 :: (get_gas_estimate_loop (1+1) 1 calls).2) :=
        gas_loop_reorg 2 0 calls e0 h0 hr0
    _ = ((get_gas_estimate_loop (0+1) 2 calls).1,
          1 :: 1 :: (get_gas_estimate_loop (0+1) 2 calls).2) := by
        rw [gas_loop_reorg 1 1 calls e1 h1 hr1]
    _ = (Except.ok v, [1, 1]) := by
        rw [gas_loop_ok 0 2 calls v h2]
  · intro calls e h0 hr0
    calc get_gas_estimate calls = get_gas_estimate_loop (2+1) 0 calls := rfl
    _ = (Except.error e, []) := gas_loop_other 2 0 calls e h0 hr0
  · intro calls e0 e1 e2 h0 hr0 h1 hr1 h2 hr2
    calc get_gas_estimate calls = get_gas_estimate_loop (2+1) 0 calls := rfl
    _ = ((get_gas_estimate_loop (1+1) 1 calls).1,
          1 :: (get_gas_estimate_loop (1+1) 1 calls).2) :=
        gas_loop_reorg 2 0 calls e0 h0 hr0
    _ = ((get_gas_estimate_loop (0+1) 2 calls).1,
          1 :: 1 :: (get_gas_estimate_loop (0+1) 2 calls).2) := by
        rw [gas_loop_reorg 1 1 calls e1 h1 hr1]
    _ = ((get_gas_estimate_loop 0 3 calls).1,
          1 :: 1 :: 1 :: (get_gas_estimate_loop 0 3 calls).2) := by
        rw [gas_loop_reorg 0 2 calls e2 h2 hr2]
    _ = (calls 3, [1, 1, 1]) := rfl

/-- C6 witness: two reorg-class failures then a success on the third attempt
return the third value after two 1-second sleeps; a non-reorg error propagates
immediately. -/
theorem c6_gas_estimate_retry_witness :
    get_gas_estimate
      (fun i => if i < 2 then Except.error ("Block with id: 0xdead not found")
        else Except.ok 21000)
      = (Except.ok 21000, [1, 1]) ∧
    get_gas_estimate (fun _ => Except.error ("insufficient funds"))
      = (Except.error ("insufficient funds"), []) := by
  constructor
  · exact c6_gas_estimate_retry.1 _ _ _ 21000 rfl (by decide) rfl (by decide) rfl
  · exact c6_gas_estimate_retry.2.1 _ _ rfl (by decide)

theorem retry_loop_succ (k i : ℕ) (op : ℕ → Except String PVal) :
    retry_on_fail_loop (k+1) i op
      = match op i with
        | Except.error e => Except.error e
        | Except.ok v =>
          if v = PVal.none ∨ v = PVal.bool false then retry_on_fail_loop k (i+1) op
          else Except.ok v := rfl

theorem retry_loop_err (k i : ℕ) (op : ℕ → Except String PVal) (e : String)
    (h : op i = Except.error e) :
    retry_on_fail_loop (k+1) i op = Except.error e := by
  rw [retry_loop_succ, h]

theorem retry_loop_okv (k i : ℕ) (op : ℕ → Except String PVal) (v : PVal)
    (h : op i = Except.ok v) :
    retry_on_fail_loop (k+1) i op
      = if v = PVal.none ∨ v = PVal.bool false then retry_on_fail_loop k (i+1) op
        else Except.ok v := by
  rw [retry_loop_succ, h]

theorem retry_loop_all_falsy (k : ℕ) : ∀ (i : ℕ) (op : ℕ → Except String PVal),
    (∀ j, j < k → op (i + j) = Except.ok PVal.none ∨ op (i + j) = Except.ok (PVal.bool false)) →
    retry_on_fail_loop k i op = Except.ok (PVal.bool false) := by
  induction k with
  | zero => intro i op _; rfl
  | succ k ih =>
    intro i op hall
    have h0 := hall 0 (by omega)
    rw [show i + 0 = i by ring] at h0
    have hnext : retry_on_fail_loop k (i + 1) op = Except.ok (PVal.bool false) := by
      apply ih
      intro j hj
      have := hall (j + 1) (by omega)
      rw [show i + (j + 1) = i + 1 + j by ring] at this
      exact this
    rcases h0 with h | h
    · rw [retry_loop_okv k i op PVal.none h, if_pos (Or.inl rfl), hnext]
    · rw [retry_loop_okv k i op (PVal.bool false) h, if_pos (Or.inr rfl), hnext]

/-- C7 counterexample: when every attempt's balance fetch fails, the wrapped
`get_native_balance` returns Python `False` (the retry wrapper's sentinel), not
`None`/null as the claim states. -/
theorem c7_get_native_balance_counterexample :
    get_native_balance (fun _ => Except.error ("rpc unreachable")) true
      = Except.ok (PVal.bool false) ∧
    get_native_balance (fun _ => Except.error ("rpc unreachable")) true
      ≠ Except.ok PVal.none := by
  have h1 : get_native_balance (fun _ => Except.error ("rpc unreachable")) true
      = Except.ok (PVal.bool false) := rfl
  refine ⟨h1, ?_⟩
  rw [h1]
  intro h
  exact absurd (Except.ok.inj h) (by decide)

/-- C7 amended: the retry wrapper re-invokes the operation on every `None`/`False`
result, does not catch exceptions (a raised attempt propagates immediately),
returns a non-falsy result at once, and after `maxAttempts` falsy results returns
`False`; consequently `get_native_balance` returns `False` — not null — when all
attempts fail. -/
theorem c7_retry_wrapper :
    (∀ (op : ℕ → Except String PVal) (tries : ℕ) (e : String), 0 < tries →
      op 0 = Except.error e → retry_on_fail tries op = Except.error e)
    ∧ (∀ (op : ℕ → Except String PVal) (tries : ℕ),
      (∀ i, i < tries → op i = Except.ok PVal.none ∨ op i = Except.ok (PVal.bool false)) →
      retry_on_fail tries op = Except.ok (PVal.bool false))
    ∧ (∀ (op : ℕ → Except String PVal) (tries : ℕ) (v : PVal), 0 < tries →
      op 0 = Except.ok v → v ≠ PVal.none → v ≠ PVal.bool false →
      retry_on_fail tries op = Except.ok v)
    ∧ (∀ (fetches : ℕ → Except String ℤ) (w : Bool),
      (∀ i, i < RETRIES → ∃ e, fetches i = Except.error e) →
      get_native_balance fetches w = Except.ok (PVal.bool false)) := by
  refine ⟨?_, ?_, ?_, ?_⟩
  · intro op tries e htries h0
    obtain ⟨k, rfl⟩ : ∃ k, tries = k + 1 := ⟨tries - 1, by omega⟩
    unfold retry_on_fail
    exact retry_loop_err k 0 op e h0
  · intro op tries hall
    unfold retry_on_fail
    apply retry_loop_all_falsy
    intro j hj
    have := hall j hj
    rw [show (0:ℕ) + j = j by ring]
    exact this
  · intro op tries v htries h0 hvn hvf
    obtain ⟨k, rfl⟩ : ∃ k, tries = k + 1 := ⟨tries - 1, by omega⟩
    unfold retry_on_fail
    rw [retry_loop_okv k 0 op v h0]
    rw [if_neg]
    intro hc
    rcases hc with hc | hc
    · exact hvn hc
    · exact hvf hc
  · intro fetches w hall
    unfold get_native_balance
    unfold retry_on_fail
    apply retry_loop_all_falsy
    intro j hj
    obtain ⟨e, he⟩ := hall j (by omega)
    left
    rw [show (0:ℕ) + j = j by ring, he]
    rfl

/-- C7 witness: the amended wrapper behaviour at concrete operations. -/
theorem c7_retry_wrapper_witness :
    retry_on_fail 3 (fun _ => Except.error ("boom")) = Except.error ("boom") ∧
    get_native_balance (fun _ => Except.error ("timeout")) false
      = Except.ok (PVal.bool false) ∧
    retry_on_fail 5 (fun _ => Except.ok (PVal.int 42)) = Except.ok (PVal.int 42) := by
  refine ⟨?_, ?_, ?_⟩
  · exact c7_retry_wrapper.1 _ 3 _ (by norm_num) rfl
  · exact c7_retry_wrapper.2.2.2 _ false (fun i _ => ⟨"timeout", rfl⟩)
  · exact c7_retry_wrapper.2.2.1 _ 5 _ (by norm_num) rfl (by decide) (by decide)

theorem stamp_isSome (isoNow : String) (r : TxRecord) :
    (stamp isoNow r).timestamp.isSome := by
  unfold stamp
  split
  · assumption
  · rfl

theorem stamp_amount (isoNow : String) (r : TxRecord) :
    (stamp isoNow r).amount = r.amount := by
  unfold stamp
  split <;> rfl

theorem stamp_success (isoNow : String) (r : TxRecord) :
    (stamp isoNow r).success = r.success := by
  unfold stamp
  split <;> rfl

theorem stamp_error (isoNow : String) (r : TxRecord) :
    (stamp isoNow r).error = r.error := by
  unfold stamp
  split <;> rfl

theorem stamp_of_isSome (isoNow : String) (r : TxRecord) (h : r.timestamp.isSome) :
    stamp isoNow r = r := by
  unfold stamp
  rw [if_pos h]

theorem lookup_append_to_wallet (l : List (String × List TxRecord)) (addr : String)
    (r : TxRecord) :
    (List.find? (fun p => p.1 == addr) (append_to_wallet l addr r)).map (fun p => p.2)
      = ((List.find? (fun p => p.1 == addr) l).map (fun p => p.2)).map
          (fun xs => xs ++ [r]) := by
  induction l with
  | nil => rfl
  | cons p tl ih =>
    unfold append_to_wallet
    unfold append_to_wallet at ih
    by_cases hp : (p.1 == addr) = true
    · simp only [List.map_cons, List.find?_cons, hp, if_pos]
      rfl
    · simp only [Bool.not_eq_true] at hp
      simp only [List.map_cons, List.find?_cons, hp, Bool.false_eq_true, if_false]
      exact ih

theorem get_wallet_append (db : DB) (addr : String) (r : TxRecord)
    (h : (lookup_wallet db addr).isSome) :
    get_wallet_transactions
        { db with transactions := append_to_wallet db.transactions addr r } addr
      = get_wallet_transactions db addr ++ [r] := by
  unfold get_wallet_transactions lookup_wallet
  rw [lookup_append_to_wallet]
  unfold lookup_wallet at h
  rcases hfind : (List.find? (fun p => p.1 == addr) db.transactions) with _ | p
  · rw [hfind] at h
    simp at h
  · rw [hfind]
    rfl

theorem add_transaction_total (iso : String) (save : Bool) (db : DB) (addr : String)
    (r : TxRecord) :
    ((add_transaction iso save db addr r).2).total_transactions
      = db.total_transactions + 1 := by
  unfold add_transaction save_db
  split <;> dsimp only <;> split
  · split <;> rfl
  · rfl
  · split <;> rfl
  · rfl

theorem add_transaction_fst_false (iso : String) (db : DB) (addr : String)
    (r : TxRecord) :
    (add_transaction iso false db addr r).1 = false := by
  unfold add_transaction save_db
  split <;> dsimp only <;> split
  · split <;> rfl
  · rfl
  · split <;> rfl
  · rfl

theorem add_transaction_transactions (iso : String) (save : Bool) (db : DB)
    (addr : String) (r : TxRecord) :
    ((add_transaction iso save db addr r).2).transactions
      = append_to_wallet
          (if (lookup_wallet db addr).isSome then db.transactions
            else db.transactions ++ [(addr, [])]) addr (stamp iso r) := by
  unfold add_transaction save_db
  split <;> dsimp only <;> split
  · split <;> rfl
  · rfl
  · split <;> rfl
  · rfl

theorem get_wallet_congr (d1 d2 : DB) (addr : String)
    (h : d1.transactions = d2.transactions) :
    get_wallet_transactions d1 addr = get_wallet_transactions d2 addr := by
  unfold get_wallet_transactions lookup_wallet
  rw [h]

theorem add_transaction_wallet (iso : String) (save : Bool) (db : DB)
    (addr : String) (r : TxRecord) :
    get_wallet_transactions ((add_transaction iso save db addr r).2) addr
      = get_wallet_transactions db addr ++ [stamp iso r] := by
  by_cases hl : (lookup_wallet db addr).isSome
  · rw [get_wallet_congr _
      { db with transactions := append_to_wallet db.transactions addr (stamp iso r) } addr
      (by rw [add_transaction_transactions, if_pos hl])]
    exact get_wallet_append db addr _ hl
  · have hfind : List.find? (fun p => p.1 == addr) db.transactions = Option.none := by
      rcases hfd : List.find? (fun p => p.1 == addr) db.transactions with _ | p
      · exact hfd
      · exfalso
        apply hl
        unfold lookup_wallet
        rw [hfd]
        rfl
    have hl' : (lookup_wallet { db with transactions := db.transactions ++ [(addr, [])] } addr).isSome := by
      unfold lookup_wallet
      dsimp only
      rw [List.find?_append, hfind]
      simp
    rw [get_wallet_congr _
      { db with transactions := append_to_wallet (db.transactions ++ [(addr, [])]) addr (stamp iso r) } addr
      (by rw [add_transaction_transactions, if_neg hl])]
    have hga := get_wallet_append { db with transactions := db.transactions ++ [(addr, [])] } addr (stamp iso r) hl'
    rw [hga]
    congr 1
    · unfold get_wallet_transactions lookup_wallet
      dsimp only
      rw [List.find?_append, hfind]
      simp

theorem add_transaction_value_success (iso : String) (save : Bool) (db : DB)
    (addr : String) (r : TxRecord) (q : ℚ)
    (ha : r.amount = Option.some (PVal.float q))
    (hs : r.success = Option.some (PVal.bool true)) :
    ((add_transaction iso save db addr r).2).total_value_bridged
      = floatAdd db.total_value_bridged q := by
  unfold add_transaction save_db
  split <;> dsimp only <;> rw [stamp_amount, stamp_success, ha, hs] <;> rfl

theorem add_transaction_value_skip (iso : String) (save : Bool) (db : DB)
    (addr : String) (r : TxRecord)
    (hs : r.success = Option.some (PVal.bool false)) :
    ((add_transaction iso save db addr r).2).total_value_bridged
      = db.total_value_bridged := by
  unfold add_transaction save_db
  split <;> dsimp only <;> rw [stamp_amount, stamp_success, hs] <;>
    rcases hra : r.amount with _ | a <;> rfl

/-- C8: every append stamps a missing timestamp, appends the record to the
wallet's ordered list, and increments `totalTransactions` by exactly 1 - so N
calls raise the counter by exactly N - while `totalValueBridged` accumulates
(with the code's float addition) exactly the amounts of the records whose
`success` is `True`. The records are assumed well-formed as the orchestrator
produces them: a boolean `success` and a float `amount`. -/
theorem c8_ledger_append (iso : String) (saveOk : Bool) (db : DB) (addr : String)
    (rs : List TxRecord)
    (hwf : ∀ r ∈ rs, (∃ b, r.success = Option.some (PVal.bool b)) ∧
      ∃ q : ℚ, r.amount = Option.some (PVal.float q)) :
    ((add_transaction_all iso saveOk db addr rs).total_transactions
      = db.total_transactions + rs.length
    ∧ (add_transaction_all iso saveOk db addr rs).total_value_bridged
      = rs.foldl (fun t r =>
          match r.amount, r.success with
          | Option.some (PVal.float q), Option.some (PVal.bool true) => floatAdd t q
          | _, _ => t) db.total_value_bridged)
    ∧ (∀ (d : DB) (r : TxRecord),
        get_wallet_transactions ((add_transaction iso saveOk d addr r).2) addr
          = get_wallet_transactions d addr ++ [stamp iso r]
        ∧ (stamp iso r).timestamp.isSome
        ∧ ((add_transaction iso saveOk d addr r).2).total_transactions
          = d.total_transactions + 1) := by
  refine ⟨?_, fun d r => ⟨add_transaction_wallet iso saveOk d addr r,
    stamp_isSome iso r, add_transaction_total iso saveOk d addr r⟩⟩
  have hind : ∀ (l : List TxRecord),
      (∀ r ∈ l, (∃ b, r.success = Option.some (PVal.bool b)) ∧
        ∃ q : ℚ, r.amount = Option.some (PVal.float q)) →
      ∀ (d : DB),
      (add_transaction_all iso saveOk d addr l).total_transactions
        = d.total_transactions + l.length
      ∧ (add_transaction_all iso saveOk d addr l).total_value_bridged
        = l.foldl (fun t r =>
            match r.amount, r.success with
            | Option.some (PVal.float q), Option.some (PVal.bool true) => floatAdd t q
            | _, _ => t) d.total_value_bridged := by
    intro l
    induction l with
    | nil =>
      intro _ d
      exact ⟨rfl, rfl⟩
    | cons r tl ih =>
      intro hall d
      obtain ⟨⟨b, hb⟩, ⟨q, hq⟩⟩ := hall r (by simp)
      have ihtl := ih (fun x hx => hall x (List.mem_cons_of_mem r hx))
      constructor
      · have h1 := (ihtl ((add_transaction iso saveOk d addr r).2)).1
        unfold add_transaction_all at h1 ⊢
        rw [List.foldl_cons, h1, add_transaction_total]
        simp only [List.length_cons]
        omega
      · have h2 := (ihtl ((add_transaction iso saveOk d addr r).2)).2
        unfold add_transaction_all at h2 ⊢
        rw [List.foldl_cons, h2, List.foldl_cons]
        congr 1
        rcases b with _ | _
        · rw [add_transaction_value_skip iso saveOk d addr r hb, hq, hb]
        · rw [add_transaction_value_success iso saveOk d addr r q hq hb, hq, hb]
  exact hind rs hwf db

/-- C8 witness: one successful and one failed append on an empty store. -/
theorem c8_ledger_append_witness :
    (add_transaction_all ("t0") true ⟨[], 0, 0, ""⟩ ("0xw")
        [{ amount := Option.some (PVal.float 1), success := Option.some (PVal.bool true) },
         { amount := Option.some (PVal.float 2), success := Option.some (PVal.bool false) }]).total_transactions
      = 2
    ∧ (add_transaction_all ("t0") true ⟨[], 0, 0, ""⟩ ("0xw")
        [{ amount := Option.some (PVal.float 1), success := Option.some (PVal.bool true) },
         { amount := Option.some (PVal.float 2), success := Option.some (PVal.bool false) }]).total_value_bridged
      = floatAdd 0 1 := by
  have h := c8_ledger_append ("t0") true ⟨[], 0, 0, ""⟩ ("0xw")
    [{ amount := Option.some (PVal.float 1), success := Option.some (PVal.bool true) },
     { amount := Option.some (PVal.float 2), success := Option.some (PVal.bool false) }]
    (by
      intro r hr
      rcases List.mem_cons.mp hr with rfl | h1
      · exact ⟨⟨true, rfl⟩, ⟨1, rfl⟩⟩
      · rcases List.mem_cons.mp h1 with rfl | h2
        · exact ⟨⟨false, rfl⟩, ⟨2, rfl⟩⟩
        · cases h2)
  refine ⟨?_, ?_⟩
  · rw [h.1.1]
    rfl
  · rw [h.1.2]
    rfl

/-- C10: when the disk write fails, `add_transaction` returns `false` but keeps
every in-memory mutation: the (timestamped) record stays appended to the
wallet's list, `totalTransactions` stays incremented, and for a successful
record with a float amount `totalValueBridged` stays increased - all visible to
subsequent queries through `get_wallet_transactions`. -/
theorem c10_persist_failure_no_rollback (iso : String) (db : DB) (addr : String)
    (r : TxRecord) :
    (add_transaction iso false db addr r).1 = false
    ∧ get_wallet_transactions ((add_transaction iso false db addr r).2) addr
        = get_wallet_transactions db addr ++ [stamp iso r]
    ∧ (stamp iso r).timestamp.isSome
    ∧ ((add_transaction iso false db addr r).2).total_transactions
        = db.total_transactions + 1
    ∧ (∀ q : ℚ, r.amount = Option.some (PVal.float q) →
        r.success = Option.some (PVal.bool true) →
        ((add_transaction iso false db addr r).2).total_value_bridged
          = floatAdd db.total_value_bridged q) :=
  ⟨add_transaction_fst_false iso db addr r,
    add_transaction_wallet iso false db addr r,
    stamp_isSome iso r,
    add_transaction_total iso false db addr r,
    fun q hq hs => add_transaction_value_success iso false db addr r q hq hs⟩

/-- C10 witness: a failed save of a successful record on an empty store. -/
theorem c10_persist_failure_witness :
    (add_transaction ("t1") false ⟨[], 0, 0, ""⟩ ("0xw")
        { amount := Option.some (PVal.float (1/2)),
          success := Option.some (PVal.bool true) }).1 = false
    ∧ (add_transaction ("t1") false ⟨[], 0, 0, ""⟩ ("0xw")
        { amount := Option.some (PVal.float (1/2)),
          success := Option.some (PVal.bool true) }).2.total_value_bridged
      = floatAdd 0 (1/2) :=
  ⟨(c10_persist_failure_no_rollback ("t1") ⟨[], 0, 0, ""⟩ ("0xw") _).1,
    (c10_persist_failure_no_rollback ("t1") ⟨[], 0, 0, ""⟩ ("0xw") _).2.2.2.2 (1/2) rfl rfl⟩

/-- C1: whenever the body of `bridge` raises (any step's exception, modelled by
`bridge_body` returning `Except.error`), the method returns `false` and a failed
TransactionRecord carrying the error message is appended to the caller's wallet
list in the ledger; `bridge` itself is a total function into `Bool × DB`, so no
exception propagates to its caller. -/
theorem c1_bridge_catches_everything (env : BridgeEnv)
    (src dst addr : String) (amount0 : Option ℚ) (mode : String)
    (include_fees : Bool) (db : DB) (msg : String) (amt : Option ℚ)
    (herr : bridge_body env src dst amount0 mode include_fees
      = Except.error (msg, amt)) :
    (bridge env src dst addr amount0 mode include_fees db).1 = false
    ∧ get_wallet_transactions (bridge env src dst addr amount0 mode include_fees db).2 addr
        = get_wallet_transactions db addr
          ++ [bridge_error_record env src dst mode msg amt]
    ∧ (bridge_error_record env src dst mode msg amt).success
        = Option.some (PVal.bool false)
    ∧ (bridge_error_record env src dst mode msg amt).error
        = Option.some (PVal.str msg)
    ∧ ((bridge_error_record env src dst mode msg amt).timestamp).isSome
    ∧ ((bridge env src dst addr amount0 mode include_fees db).2).total_transactions
        = db.total_transactions + 1 := by
  unfold bridge
  rw [herr]
  have hstamped : stamp env.iso_now (bridge_error_record env src dst mode msg amt)
      = bridge_error_record env src dst mode msg amt :=
    stamp_of_isSome _ _ rfl
  refine ⟨rfl, ?_, rfl, rfl, rfl, ?_⟩
  · rw [add_transaction_wallet, hstamped]
  · rw [add_transaction_total]

/-- C1 witness: a bridge run whose quote step raises ends with `false` and a
failed record appended to an empty ledger. -/
theorem c1_bridge_catches_everything_witness :
    (bridge
        ⟨0, 1, Except.ok 5, 3000, PVal.float 1, Except.ok (1/2),
          Except.error ("Failed to build tx data: execution reverted"),
          Except.ok (), Except.ok 21000, Except.ok Option.none, false,
          Except.ok Option.none, true, "t"⟩
        ("Arbitrum") ("Base") ("0xw") Option.none ("BUS") false
        ⟨[], 0, 0, ""⟩).1 = false
    ∧ get_wallet_transactions
        (bridge
          ⟨0, 1, Except.ok 5, 3000, PVal.float 1, Except.ok (1/2),
            Except.error ("Failed to build tx data: execution reverted"),
            Except.ok (), Except.ok 21000, Except.ok Option.none, false,
            Except.ok Option.none, true, "t"⟩
          ("Arbitrum") ("Base") ("0xw") Option.none ("BUS") false
          ⟨[], 0, 0, ""⟩).2 ("0xw")
      = [bridge_error_record
          ⟨0, 1, Except.ok 5, 3000, PVal.float 1, Except.ok (1/2),
            Except.error ("Failed to build tx data: execution reverted"),
            Except.ok (), Except.ok 21000, Except.ok Option.none, false,
            Except.ok Option.none, true, "t"⟩
          ("Arbitrum") ("Base") ("BUS")
          ("Failed to build tx data: execution reverted") (Option.some (1/2))] := by
  have h := c1_bridge_catches_everything
    ⟨0, 1, Except.ok 5, 3000, PVal.float 1, Except.ok (1/2),
      Except.error ("Failed to build tx data: execution reverted"),
      Except.ok (), Except.ok 21000, Except.ok Option.none, false,
      Except.ok Option.none, true, "t"⟩
    ("Arbitrum") ("Base") ("0xw") Option.none ("BUS") false
    ⟨[], 0, 0, ""⟩ ("Failed to build tx data: execution reverted")
    (Option.some (1/2)) rfl
  exact ⟨h.1, h.2.1⟩

/-- C9: constructing the orchestrator for a chain whose id is not a key of the
native-pool table raises `ValueError` - in particular for the configured Mainnet
descriptor (chain id 1, absent from the table) - and because the exception is
raised before `bridge` runs, the ledger is returned untouched: no failed
TransactionRecord is appended. -/
theorem c9_unsupported_chain_init (env : BridgeEnv)
    (src dst addr : String) (amount0 : Option ℚ) (mode : String)
    (include_fees : Bool) (db : DB) :
    stargate_init MAINNET
      = Except.error ("Chain Mainnet is not supported for Stargate ETH bridging")
    ∧ MAINNET.chain_id = Option.some 1
    ∧ (∀ p ∈ STARGATE_ETH_NATIVE_POOL_ADDRESSES, p.1 ≠ 1)
    ∧ bridge_via_stargate MAINNET env src dst addr amount0 mode include_fees db
      = (Except.error ("Chain Mainnet is not supported for Stargate ETH bridging"), db)
    ∧ (∀ (c : Chain) (cid : ℤ), c.chain_id = Option.some cid →
        (∀ p ∈ STARGATE_ETH_NATIVE_POOL_ADDRESSES, p.1 ≠ cid) →
        stargate_init c
          = Except.error ("Chain " ++ c.name ++ " is not supported for Stargate ETH bridging")) := by
  refine ⟨rfl, rfl, by decide, rfl, ?_⟩
  intro c cid hcid hall
  unfold stargate_init
  rw [hcid]
  have hfind : STARGATE_ETH_NATIVE_POOL_ADDRESSES.find? (fun p => p.1 == cid)
      = Option.none := by
    rw [List.find?_eq_none]
    intro p hp
    simp only [beq_iff_eq]
    exact hall p hp
  rw [Option.some_bind, hfind]
  rfl

/-- C9 witness: the general unsupported-chain clause at a concrete descriptor. -/
theorem c9_unsupported_chain_init_witness :
    stargate_init { name := "Fantom", chain_id := Option.some 250 }
      = Except.error ("Chain Fantom is not supported for Stargate ETH bridging") := by
  have h := (c9_unsupported_chain_init
    ⟨0, 0, Except.ok 0, 0, PVal.none, Except.ok 0, Except.ok ⟨0, build_send_param 0 ("0x") 0 ("BUS"), 0⟩,
      Except.ok (), Except.ok 0, Except.ok Option.none, false, Except.ok Option.none,
      false, ""⟩
    ("s") ("d") ("a") Option.none ("BUS") false ⟨[], 0, 0, ""⟩).2.2.2.2
    { name := "Fantom", chain_id := Option.some 250 } 250 rfl (by decide)
  exact h

end StargateProject


